import Mathlib

/-!
Verification development for the Vienna yearly-ticket analysis program
(`annual_ticket_calculation_from_google_data.py`).

The Python source is shallowly embedded below: SQLite tables become
association lists inside a `Store` structure, the sqlite cursor side effects
become explicit state passing, Python floats become exact rationals (`Q`,
a numerator/denominator pair with structural operations), Python `datetime`
becomes a `DateTime` record measured in proleptic-Gregorian seconds, and all
fallible paths (malformed timestamps, UNIQUE-constraint violations,
`urllib` transport failures) become `Except`/`Option` results.
-/

namespace Vienna

/-! ## Exact rationals

Python's floats appear in the program only as probabilities, prices and
minute counts, combined by `<`, `>`, `round(x)`, `round(x, 2)` and division
by small integers.  They are embedded as exact fractions with an explicitly
positive denominator; no normalization is ever needed, so every operation
is a plain integer computation. -/

structure Q where
  num : ℤ
  den : ℤ
deriving DecidableEq, Repr

/-- Embed an integer as a fraction. -/
def Q.ofInt (n : ℤ) : Q := ⟨n, 1⟩

/-- Value comparison `a < b` for fractions with positive denominators. -/
def Q.blt (a b : Q) : Bool := a.num * b.den < b.num * a.den

/-- The rational value of a fraction, for stating semantic properties. -/
def Q.val (a : Q) : ℚ := (a.num : ℚ) / (a.den : ℚ)

/-- Python's `round` on an exact fraction with positive denominator:
round half to even (banker's rounding), as used by `round(x)` in
`read_sql` and by `round(x, 2)` via `round2` below. -/
def pyRound (q : Q) : ℤ :=
  let f : ℤ := q.num.fdiv q.den
  let r : ℤ := q.num - f * q.den
  if 2 * r < q.den then f
  else if q.den < 2 * r then f + 1
  else if f % 2 = 0 then f else f + 1

/-- `round(x, 2)` from the Python source: the value stored for every
confidence and for the per-day activity rates. -/
def round2 (q : Q) : Q := ⟨pyRound ⟨q.num * 100, q.den⟩, 100⟩

/-! ## Calendar arithmetic (mirrors Python `datetime` / `calendar`) -/

/-- Gregorian leap-year test, as used by `calendar.monthrange`. -/
def isLeap (y : ℕ) : Bool := y % 4 == 0 && (y % 100 != 0 || y % 400 == 0)

/-- `calendar.monthrange(y, m)[1]`: number of days in a calendar month. -/
def daysInMonth (y m : ℕ) : ℕ :=
  if m = 2 then (if isLeap y then 29 else 28)
  else if m = 4 ∨ m = 6 ∨ m = 9 ∨ m = 11 then 30
  else 31

/-- Days in months `1..m-1` of year `y` (0 for `m ≤ 1`). -/
def daysBeforeMonth (y : ℕ) : ℕ → ℕ
  | 0 => 0
  | 1 => 0
  | (m + 1) => daysBeforeMonth y m + daysInMonth y m

/-- Proleptic-Gregorian ordinal of a calendar date, as in Python's
`date.toordinal` (day 1 = 0001-01-01). -/
def dateOrdinal (y m d : ℕ) : ℕ :=
  (y - 1) * 365 + (y - 1) / 4 - (y - 1) / 100 + (y - 1) / 400
    + daysBeforeMonth y m + d

/-- In-memory instant, the embedding of the Python `datetime` values
produced by `datetime.strptime(ts, '%Y-%m-%d %H:%M:%S')`. -/
structure DateTime where
  year : ℕ
  month : ℕ
  day : ℕ
  hour : ℕ
  minute : ℕ
  second : ℕ
deriving DecidableEq, Repr

/-- Seconds within the day of an instant. -/
def timeSecs (t : DateTime) : ℕ := t.hour * 3600 + t.minute * 60 + t.second

/-- Absolute second count of an instant; differences of these model Python's
`timedelta.total_seconds()`. -/
def totalSeconds (t : DateTime) : ℤ :=
  (dateOrdinal t.year t.month t.day : ℤ) * 86400 + (timeSecs t : ℤ)

/-- Left zero-padding to two digits, as in `datetime.__str__`. -/
def pad2 (n : ℕ) : String := if n < 10 then "0" ++ toString n else toString n

/-- Left zero-padding to four digits, as in `datetime.__str__`. -/
def pad4 (n : ℕ) : String :=
  if n < 10 then "000" ++ toString n
  else if n < 100 then "00" ++ toString n
  else if n < 1000 then "0" ++ toString n
  else toString n

/-- `str(datetime)` for a whole-second instant: `YYYY-MM-DD hh:mm:ss`. -/
def formatDateTime (t : DateTime) : String :=
  pad4 t.year ++ "-" ++ pad2 t.month ++ "-" ++ pad2 t.day ++ " " ++
    pad2 t.hour ++ ":" ++ pad2 t.minute ++ ":" ++ pad2 t.second

/-! ## String helpers

Core `String.contains`, `String.toNat?`, `String.replace` and the `String`
order are implemented with position loops that the kernel cannot evaluate,
so equivalent structural versions over `toList` are used instead. -/

/-- Python `int(...)` on the digit-only substrings the program slices out of
timestamps; `none` models the `ValueError` on anything non-numeric. -/
def strToNat? (s : String) : Option ℕ :=
  if s.toList.isEmpty then none
  else s.toList.foldl
    (fun acc c => acc.bind fun n =>
      (if c.isDigit then some (c.toNat - 48) else none).map fun d => n * 10 + d)
    (some 0)

/-- `'T' in timestamp` from `get_time`. -/
def containsT (s : String) : Bool := s.toList.contains 'T'

/-- Byte-order comparison of code points, the `BINARY` collation SQLite uses
for `ORDER BY StartTime` (on UTF-8 text, byte order equals code-point
order). -/
def charListLt : List Char → List Char → Bool
  | [], [] => false
  | [], _ :: _ => true
  | _ :: _, [] => false
  | a :: as, b :: bs =>
    if a.toNat < b.toNat then true
    else if b.toNat < a.toNat then false
    else charListLt as bs

/-- String order used by `SELECT * FROM Journeys ORDER BY StartTime`. -/
def strLt (a b : String) : Bool := charListLt a.toList b.toList

/-- `str.replace('_', ' ')` as applied to activity names (the needle is a
single character, so a character map is equivalent). -/
def underscoreToSpace (s : String) : String :=
  String.mk (s.toList.map fun c => if c = '_' then ' ' else c)

/-! ## Timestamps (`get_time`) -/

/-- `datetime.strptime(ts, '%Y-%m-%d %H:%M:%S')` on a 19-character string:
positional digit fields with the source separators, and the range checks
`strptime` performs (month 1–12, day valid for the month, time fields in
range).  `none` models the `ValueError` the Python call raises. -/
def parseSqlDateTime (ts : String) : Option DateTime :=
  match strToNat? (ts.take 4), strToNat? ((ts.drop 5).take 2),
        strToNat? ((ts.drop 8).take 2), strToNat? ((ts.drop 11).take 2),
        strToNat? ((ts.drop 14).take 2), strToNat? ((ts.drop 17).take 2) with
  | some y, some m, some d, some hh, some mm, some ss =>
    if (ts.drop 4).take 1 = "-" ∧ (ts.drop 7).take 1 = "-" ∧
       (ts.drop 10).take 1 = " " ∧ (ts.drop 13).take 1 = ":" ∧
       (ts.drop 16).take 1 = ":" ∧
       1 ≤ m ∧ m ≤ 12 ∧ 1 ≤ d ∧ d ≤ daysInMonth y m ∧
       hh ≤ 23 ∧ mm ≤ 59 ∧ ss ≤ 59
    then some ⟨y, m, d, hh, mm, ss⟩ else none
  | _, _, _, _, _, _ => none

/-- Error taxonomy of an ingestion run: the three ways the Python process
aborts (`terminate` on an unidentified timestamp or the `ValueError` from
`strptime`, `sqlite3.IntegrityError` from a UNIQUE column, and an uncaught
`urllib` exception). -/
inductive IngestErr where
  | malformedTimestamp
  | constraintViolation
  | transportError
deriving DecidableEq, Repr

/-- `get_time` as called during ingestion (timestamps coming from JSON).
A string containing `'T'` is sliced to `ts[:10] + ' ' + ts[11:19]` with no
further validation.  A 19-character string is parsed with `strptime`; in
Python the resulting `datetime` round-trips through the sqlite adapter back
to the identical 19-character text, so the embedding returns the string
itself (or an error for the `ValueError` case).  Anything else hits the
`terminate` branch. -/
def get_time (ts : String) : Except IngestErr String :=
  if containsT ts then .ok (ts.take 10 ++ " " ++ (ts.drop 11).take 8)
  else if ts.length = 19 then
    match parseSqlDateTime ts with
    | some _ => .ok ts
    | none => .error .malformedTimestamp
  else .error .malformedTimestamp

/-- `get_time` as called from `read_sql` / `get_public_transit_sql` on
stored timestamps, where the caller immediately uses the result in
`datetime` arithmetic: the `'T'` branch (which would return a string and
make that arithmetic raise `TypeError`) and the `terminate` branch are both
modelled as `none`. -/
def get_time_read (ts : String) : Option DateTime :=
  if containsT ts then none
  else if ts.length = 19 then parseSqlDateTime ts
  else none

/-! ## Place resolution (`get_city`) -/

/-- One entry of `result['address_components']` in the geocoding reply. -/
structure AddressComponent where
  long_name : String
  types : List String
deriving DecidableEq, Repr

/-- One entry of the geocoding reply's `results` list. -/
structure GeoResult where
  address_components : List AddressComponent
deriving DecidableEq, Repr

/-- Outcome of the HTTP fetch inside `get_city`: either the transport layer
fails (`urllib.request.urlopen` raises, nothing catches it) or a JSON body
with a `status` and a `results` list is obtained. -/
inductive ResolverResponse where
  | transportFailure
  | response (status : String) (results : List GeoResult)
deriving DecidableEq, Repr

/-- The injected geocoding service: coordinates string to response. -/
abbrev Resolver := String → ResolverResponse

/-- The inner `for item in address` loop of `get_city`: sequential
`locality` / `airport` / `country` checks updating `(city, country)`. -/
def addrLoop : List AddressComponent → String → String → String × String
  | [], city, country => (city, country)
  | item :: rest, city, country =>
    if item.types.contains "locality" then addrLoop rest item.long_name country
    else if item.types.contains "airport" then addrLoop rest item.long_name country
    else if item.types.contains "country" then addrLoop rest city item.long_name
    else addrLoop rest city country

/-- The outer `for result in results` loop of `get_city`, including the
top-of-loop early exit and the "all characters non-ASCII or non-alphabetic"
reset of `city`. -/
def cityLoop : List GeoResult → String → String → String × String
  | [], city, country => (city, country)
  | r :: rs, city, country =>
    if city ≠ "Unidentified" ∧ country ≠ "Unidentified" then (city, country)
    else
      let p := addrLoop r.address_components city country
      let city' := if p.1.toList.all (fun c => !(decide (c.toNat < 128) && c.isAlpha))
        then "Unidentified" else p.1
      cityLoop rs city' p.2

/-- `get_city`: a transport failure propagates (no `try` surrounds the
fetch); a non-`'OK'` status returns the bare string `'Unidentified'`;
otherwise the city/country scan runs, `'Wien'` is anglicized, and
`city + ', ' + country` is returned. -/
def get_city (resp : ResolverResponse) : Except IngestErr String :=
  match resp with
  | .transportFailure => .error .transportError
  | .response status results =>
    if status ≠ "OK" then .ok "Unidentified"
    else
      let p := cityLoop results "Unidentified" "Unidentified"
      let city := if p.1 = "Wien" then "Vienna" else p.1
      .ok (city ++ ", " ++ p.2)

/-! ## The SQLite store

The three tables created by `sql_define`, as in-memory association
structures.  Rows are kept in insertion (rowid) order; the `next…Id`
counters model the `AUTOINCREMENT` primary keys, and `lastrowid` is the id
just allocated. -/

/-- One row of the `Journeys` table (column order of the schema). -/
structure JourneyRow where
  id : ℕ
  startTime : String
  endTime : String
  startCityId : Option ℕ := none
  endCityId : Option ℕ := none
  activityGuessId : Option ℕ := none
  pActivity : Option Q := none
  pubTransGuessId : Option ℕ := none
  pTransGuess : Option Q := none
  complete : Bool := false
deriving DecidableEq, Repr

/-- The persistent state: `Journeys`, `ActivityTypes` and `Locations`. -/
structure Store where
  journeys : List JourneyRow
  nextJourneyId : ℕ
  activityTypes : List (ℕ × String)
  nextActivityId : ℕ
  locations : List (ℕ × String)
  nextLocationId : ℕ
deriving DecidableEq, Repr

/-- A freshly created database (`AUTOINCREMENT` starts at 1). -/
def emptyStore : Store := ⟨[], 1, [], 1, [], 1⟩

/-- `SELECT ... FROM Journeys WHERE StartTime = ?` (first match in rowid
order). -/
def findByStart (s : Store) (st : String) : Option JourneyRow :=
  s.journeys.find? (fun r => r.startTime == st)

/-- `SELECT id FROM Journeys WHERE id = ?`. -/
def rowById (s : Store) (jid : ℕ) : Option JourneyRow :=
  s.journeys.find? (fun r => r.id == jid)

/-- `INSERT INTO Journeys (StartTime, EndTime) VALUES (?, ?)`: both columns
are declared `UNIQUE`, so a duplicate in either raises
`sqlite3.IntegrityError`; otherwise the bare row is appended and
`lastrowid` returned. -/
def insertBare (s : Store) (st et : String) : Except IngestErr (Store × ℕ) :=
  if s.journeys.any (fun r => r.startTime == st || r.endTime == et) then
    .error .constraintViolation
  else
    .ok ({ s with
            journeys := s.journeys ++ [{ id := s.nextJourneyId,
                                         startTime := st, endTime := et }],
            nextJourneyId := s.nextJourneyId + 1 }, s.nextJourneyId)

/-- `INSERT OR IGNORE INTO Locations (City) VALUES (?)` followed by
`SELECT id FROM Locations WHERE City = ?`. -/
def upsertLocation (name : String) (s : Store) : ℕ × Store :=
  match s.locations.find? (fun p => p.2 == name) with
  | some p => (p.1, s)
  | none => (s.nextLocationId,
      { s with locations := s.locations ++ [(s.nextLocationId, name)],
               nextLocationId := s.nextLocationId + 1 })

/-- `INSERT OR IGNORE INTO ActivityTypes (Activity) VALUES (?)` followed by
`SELECT id FROM ActivityTypes WHERE Activity = ?`. -/
def upsertActivity (name : String) (s : Store) : ℕ × Store :=
  match s.activityTypes.find? (fun p => p.2 == name) with
  | some p => (p.1, s)
  | none => (s.nextActivityId,
      { s with activityTypes := s.activityTypes ++ [(s.nextActivityId, name)],
               nextActivityId := s.nextActivityId + 1 })

/-- `UPDATE Journeys SET ... WHERE id = ?`: apply a field update to every
row whose id matches. -/
def updateRow (s : Store) (jid : ℕ) (f : JourneyRow → JourneyRow) : Store :=
  { s with journeys := s.journeys.map (fun r => if r.id == jid then f r else r) }

/-- `UPDATE Journeys SET StartCity_id = ?, EndCity_id = ? WHERE id = ?`. -/
def setPlaces (jid scid ecid : ℕ) (s : Store) : Store :=
  updateRow s jid (fun r =>
    { r with startCityId := some scid, endCityId := some ecid })

/-- `UPDATE Journeys SET activityGuess_id = ?, P_activity = ? WHERE id = ?`. -/
def setActivity (jid aid : ℕ) (p : Q) (s : Store) : Store :=
  updateRow s jid (fun r =>
    { r with activityGuessId := some aid, pActivity := some p })

/-- `UPDATE Journeys SET pubTransGuess_id = ?, P_transGuess = ? WHERE id = ?`. -/
def setTransit (jid aid : ℕ) (p : Q) (s : Store) : Store :=
  updateRow s jid (fun r =>
    { r with pubTransGuessId := some aid, pTransGuess := some p })

/-- `UPDATE Journeys SET Complete = 1 WHERE id = ?`. -/
def markComplete (s : Store) (jid : ℕ) : Store :=
  updateRow s jid (fun r => { r with complete := true })

/-- `SELECT COUNT(*) FROM Journeys WHERE Complete = 1`
(`total_journey_count`). -/
def countComplete (s : Store) : ℕ :=
  (s.journeys.filter (fun r => r.complete)).length

/-! ## Raw observation batches -/

/-- One guess of an `activitySegment`'s `activities` list. -/
structure Guess where
  activityType : String
  probability : Q
deriving DecidableEq, Repr

/-- One `activitySegment` dict: timestamps, E7 coordinates, ranked guesses. -/
structure Segment where
  startTimestamp : String
  endTimestamp : String
  startLocation : ℤ × ℤ
  endLocation : ℤ × ℤ
  activities : List Guess
deriving DecidableEq, Repr

/-- One element of the JSON `timelineObjects` list: `fill_sql` skips every
dict whose first key is not `'activitySegment'`. -/
inductive TimelineItem where
  | activitySegment (seg : Segment)
  | other
deriving DecidableEq, Repr

/-- `str(lat) + ',' + str(lon)` from the E7 coordinate fields. -/
def coordsOf (p : ℤ × ℤ) : String := toString p.1 ++ "," ++ toString p.2

/-- User-definable configuration (`threshold_P`, `public_transit_modes`). -/
structure Config where
  threshold : Q
  modes : List String
deriving Repr

/-! ## Ingestion (`fill_sql`) -/

/-- The `a ≥ 1` iterations of the guess loop in `fill_sql`: scanning stops
at the first sub-threshold guess; a suprathreshold transit-mode guess
upserts its type and overwrites the `pubTransGuess` columns, and the scan
continues (there is no `break` in this branch). -/
def processRest (cfg : Config) (jid : ℕ) : List Guess → Store → Store
  | [], s => s
  | g :: gs, s =>
    if Q.blt g.probability cfg.threshold then s
    else if cfg.modes.contains g.activityType then
      let p := upsertActivity g.activityType s
      processRest cfg jid gs (setTransit jid p.1 (round2 g.probability) p.2)
    else processRest cfg jid gs s

/-- The transit-column handling of the `a == 0` block combined with the
`a ≥ 1` scan: if the rank-0 type is a transit mode, set the transit columns
and stop (the `break`); otherwise scan the remaining guesses. -/
def fillCore0 (cfg : Config) (g0 : Guess) (rest : List Guess)
    (jid scid ecid : ℕ) (s : Store) : Store :=
  let s3 := setPlaces jid scid ecid s
  let p3 := upsertActivity g0.activityType s3
  let s5 := setActivity jid p3.1 (round2 g0.probability) p3.2
  if cfg.modes.contains g0.activityType then
    setTransit jid p3.1 (round2 g0.probability) s5
  else processRest cfg jid rest s5

/-- The guess-scanning and completion tail of the `a == 0` block, after both
places are resolved and upserted: set the place columns, upsert the rank-0
activity and set the activity columns, handle the transit columns
(`fillCore0`), then mark the row complete. -/
def fillCore (cfg : Config) (g0 : Guess) (rest : List Guess)
    (jid scid ecid : ℕ) (s : Store) : Store :=
  markComplete (fillCore0 cfg g0 rest jid scid ecid s) jid

/-- The body of the `a == 0` iteration after a journey id is in hand:
resolve both places through `get_city` (a transport failure propagates),
upsert them into `Locations`, then run `fillCore` and bump the counter. -/
def fillJourney (cfg : Config) (resolver : Resolver) (seg : Segment)
    (g0 : Guess) (rest : List Guess) (jid : ℕ) (s : Store) (n : ℕ) :
    Except IngestErr (Store × ℕ) :=
  match get_city (resolver (coordsOf seg.startLocation)) with
  | .error e => .error e
  | .ok startCity =>
    let p1 := upsertLocation startCity s
    match get_city (resolver (coordsOf seg.endLocation)) with
    | .error e => .error e
    | .ok endCity =>
      let p2 := upsertLocation endCity p1.2
      .ok (fillCore cfg g0 rest jid p1.1 p2.1 p2.2, n + 1)

/-- Processing of one `activitySegment` in `fill_sql`: sub-threshold rank-0
guesses (and empty guess lists) leave the store untouched; otherwise the
timestamps are converted, an existing complete row short-circuits, an
incomplete row is resumed, and a fresh start time inserts a new bare row. -/
def processSegment (cfg : Config) (resolver : Resolver) (seg : Segment)
    (s : Store) (n : ℕ) : Except IngestErr (Store × ℕ) :=
  match seg.activities with
  | [] => .ok (s, n)
  | g0 :: rest =>
    if Q.blt g0.probability cfg.threshold then .ok (s, n)
    else
      match get_time seg.startTimestamp with
      | .error e => .error e
      | .ok startSql =>
        match get_time seg.endTimestamp with
        | .error e => .error e
        | .ok endSql =>
          match findByStart s startSql with
          | some row =>
            if row.complete then .ok (s, n)
            else fillJourney cfg resolver seg g0 rest row.id s n
          | none =>
            match insertBare s startSql endSql with
            | .error e => .error e
            | .ok (s1, jid) => fillJourney cfg resolver seg g0 rest jid s1 n

/-- One iteration of `for item in data` in `fill_sql`. -/
def processItem (cfg : Config) (resolver : Resolver) (s : Store) (n : ℕ) :
    TimelineItem → Except IngestErr (Store × ℕ)
  | .other => .ok (s, n)
  | .activitySegment seg => processSegment cfg resolver seg s n

/-- `fill_sql(data, cur, public_transit_modes)`: fold the items through the
store, threading the global `new_journey_counter`. -/
def fill_sql (cfg : Config) (resolver : Resolver) :
    List TimelineItem → Store → ℕ → Except IngestErr (Store × ℕ)
  | [], s, n => .ok (s, n)
  | item :: items, s, n =>
    match processItem cfg resolver s n item with
    | .error e => .error e
    | .ok p => fill_sql cfg resolver items p.1 p.2

/-- The `for file in json_file_list` loop of `main`: each file's data is
ingested into the same connection state. -/
def fill_files (cfg : Config) (resolver : Resolver) :
    List (List TimelineItem) → Store → ℕ → Except IngestErr (Store × ℕ)
  | [], s, n => .ok (s, n)
  | f :: fs, s, n =>
    match fill_sql cfg resolver f s n with
    | .error e => .error e
    | .ok p => fill_files cfg resolver fs p.1 p.2

/-- Durable-commit semantics of a run of `main`'s ingestion phase: the
connection state starts at the durable store; on success `main` commits
(only when `new_journey_counter > 0`); on any abort `terminate` closes the
connection without committing, so the pending transaction is rolled back
and the durable store is unchanged. -/
def run_ingestion (cfg : Config) (resolver : Resolver)
    (files : List (List TimelineItem)) (durable : Store) :
    Store × Except IngestErr ℕ :=
  match fill_files cfg resolver files durable 0 with
  | .ok p => ((if 0 < p.2 then p.1 else durable), .ok p.2)
  | .error e => (durable, .error e)

/-! ## Trip extraction and merging (`read_sql`, `get_public_transit_sql`) -/

/-- Insertion step of the `ORDER BY StartTime` sort. -/
def insertByStart (j : JourneyRow) : List JourneyRow → List JourneyRow
  | [] => [j]
  | k :: ks => if strLt j.startTime k.startTime then j :: k :: ks
               else k :: insertByStart j ks

/-- `SELECT * FROM Journeys ORDER BY StartTime` (insertion sort under the
binary collation). -/
def sortByStart : List JourneyRow → List JourneyRow
  | [] => []
  | j :: js => insertByStart j (sortByStart js)

/-- `get_public_transit_sql(cur, journey)`: a row counts as a Vienna public
transit trip when its transit guess is set, start and end city ids match,
and the start city resolves to `'Vienna, Austria'`.  `none` models the
`TypeError` raised on a missing location row or an unparseable stored start
time. -/
def get_public_transit_sql (locations : List (ℕ × String)) (j : JourneyRow) :
    Option (ℕ × Option DateTime) :=
  match j.pubTransGuessId with
  | none => some (0, none)
  | some _ =>
    match j.startCityId with
    | none => none
    | some sc =>
      match (locations.find? (fun p => p.1 == sc)).map (fun p => p.2) with
      | none => none
      | some cityName =>
        if j.endCityId == j.startCityId && cityName == "Vienna, Austria" then
          match get_time_read j.startTime with
          | none => none
          | some t => some (1, some t)
        else some (0, none)

/-- The trip-merging loop of `read_sql`: count a candidate when it is the
first one seen or when the rounded minute gap from the immediately
preceding candidate exceeds `ticket_time`; `last_trip_start` follows every
candidate. -/
def viennaLoop (locations : List (ℕ × String)) (ticket_time : Q) :
    List JourneyRow → ℕ → Option DateTime → Option ℕ
  | [], cnt, _ => some cnt
  | j :: js, cnt, last =>
    match get_public_transit_sql locations j with
    | none => none
    | some pr =>
      match pr.2 with
      | none => viennaLoop locations ticket_time js cnt last
      | some t =>
        match last with
        | none => viennaLoop locations ticket_time js (cnt + pr.1) (some t)
        | some lt =>
          let d : ℤ := pyRound ⟨totalSeconds t - totalSeconds lt, 60⟩
          if Q.blt ticket_time (Q.ofInt d) then
            viennaLoop locations ticket_time js (cnt + pr.1) (some t)
          else viennaLoop locations ticket_time js cnt (some t)

/-- `read_sql(cur, ticket_time)`: order the journeys, take the first and
last start instants, compute `(last - first).days + 1`, and run the merge
loop.  `none` models the `IndexError` on an empty table and the
`TypeError`/`terminate` cases on malformed stored timestamps. -/
def read_sql (store : Store) (ticket_time : Q) :
    Option (List JourneyRow × DateTime × DateTime × ℤ × ℕ) :=
  match sortByStart store.journeys with
  | [] => none
  | j0 :: rest =>
    match get_time_read j0.startTime, (j0 :: rest).getLast? with
    | some vf, some jl =>
      match get_time_read jl.startTime with
      | some vl =>
        match viennaLoop store.locations ticket_time (j0 :: rest) 0 none with
        | some cnt =>
          some (j0 :: rest, vf, vl,
            (totalSeconds vl - totalSeconds vf).fdiv 86400 + 1, cnt)
        | none => none
      | none => none
    | _, _ => none

/-! ## Activity timeline (`activities_over_time`) -/

/-- `calendar.month_name[m]` for `1 ≤ m ≤ 12`. -/
def monthNameStr : ℕ → String
  | 1 => "January" | 2 => "February" | 3 => "March" | 4 => "April"
  | 5 => "May" | 6 => "June" | 7 => "July" | 8 => "August"
  | 9 => "September" | 10 => "October" | 11 => "November" | 12 => "December"
  | _ => ""

/-- Name adjustment for one `ActivityTypes` row: transit modes collapse to
`'PUBLIC TRANSIT'`, underscores become spaces. -/
def adjustName (modes : List String) (name : String) : String :=
  let name' := if modes.contains name then "PUBLIC TRANSIT" else name
  if name'.toList.contains '_' then underscoreToSpace name' else name'

/-- The `for activity in activities` loop building `activity_dict` and
`activity_list`. -/
def buildDict (modes : List String) :
    List (ℕ × String) → List (ℕ × String) → List String →
    List (ℕ × String) × List String
  | [], dict, lst => (dict, lst)
  | (i, nm) :: rest, dict, lst =>
    let nm' := adjustName modes nm
    buildDict modes rest (dict ++ [(i, nm')])
      (if lst.contains nm' then lst else lst ++ [nm'])

/-- One month's sub-dictionary of `counts`: the `'Days'` entry and the
per-activity counters (kept in `activity_list` order, as the Python dict
is populated). -/
structure MonthBucket where
  days : ℤ
  counts : List (String × ℕ)
deriving DecidableEq, Repr

/-- Increment an activity counter inside a bucket list; `none` models the
`KeyError` on a missing key. -/
def bumpCount (counts : List (String × MonthBucket)) (monthName act : String) :
    Option (List (String × MonthBucket)) :=
  match counts.find? (fun p => p.1 == monthName) with
  | none => none
  | some p =>
    match p.2.counts.find? (fun q => q.1 == act) with
    | none => none
    | some _ =>
      some (counts.map (fun p' =>
        if p'.1 == monthName then
          (p'.1, ⟨p'.2.days, p'.2.counts.map (fun q =>
            if q.1 == act then (q.1, q.2 + 1) else q)⟩)
        else p'))

/-- The `for journey in journeys` loop of `activities_over_time`: slice
month and year from the stored start time, compute the (possibly clipped)
day count, create the month bucket on first sight with explicit zero
counts, and bump the journey's activity counter. -/
def atLoop (dict : List (ℕ × String)) (actList : List String)
    (vfs vls : String) :
    List JourneyRow → List (String × MonthBucket) →
    Option (List (String × MonthBucket))
  | [], counts => some counts
  | j :: js, counts => do
    let monthStr := (j.startTime.drop 5).take 2
    let yearStr := j.startTime.take 4
    let m ← strToNat? monthStr
    let y ← strToNat? yearStr
    guard (1 ≤ m ∧ m ≤ 12)
    let monthName := monthNameStr m ++ " " ++ yearStr
    let dim0 : ℤ := (daysInMonth y m : ℤ)
    let dim1 : ℤ ←
      if (vfs.drop 5).take 2 = monthStr ∧ (vfs.drop 8).take 2 ≠ "01" then do
        let fd ← strToNat? ((vfs.drop 8).take 2)
        pure (dim0 - (fd : ℤ) + 1)
      else pure dim0
    let dim2 : ℤ ←
      if (vls.drop 5).take 2 = monthStr then do
        let ld ← strToNat? ((vls.drop 8).take 2)
        pure (if (ld : ℤ) ≠ dim1 then (ld : ℤ) else dim1)
      else pure dim1
    let counts1 :=
      if counts.any (fun p => p.1 == monthName) then counts
      else counts ++ [(monthName, ⟨dim2, actList.map (fun a => (a, 0))⟩)]
    let counts2 ←
      match j.activityGuessId with
      | none => pure counts1
      | some aid =>
        match (dict.find? (fun p => p.1 == aid)).map (fun p => p.2) with
        | none => none
        | some act => bumpCount counts1 monthName act
    atLoop dict actList vfs vls js counts2

/-- The final normalization loop: `count / Days` rounded to two decimals
per activity and month; `none` models the `ZeroDivisionError` when a
clipped day count is zero. -/
def perDay (counts : List (String × MonthBucket)) :
    Option (List (String × List (String × Q))) :=
  counts.mapM (fun p =>
    if p.2.days = 0 then none
    else some (p.1, p.2.counts.map (fun q =>
      (q.1, round2 ⟨(q.2 : ℤ), p.2.days⟩))))

/-- `activities_over_time(cur, journeys, public_transit_modes, vf, vl)`:
build the activity dictionary from the `ActivityTypes` table, then bucket
the journeys by month. -/
def activities_over_time (modes : List String)
    (activities : List (ℕ × String)) (journeys : List JourneyRow)
    (vf vl : DateTime) :
    Option (List String × List (String × MonthBucket) ×
            List (String × List (String × Q))) := do
  let p := buildDict modes activities [] []
  let vfs := formatDateTime vf
  let vls := formatDateTime vl
  let counts ← atLoop p.1 p.2 vfs vls journeys []
  let cpd ← perDay counts
  pure (p.2, counts, cpd)

/-! ## Derived notions used to state the claims -/

/-- Look up an activity name by id in the `ActivityTypes` table. -/
def lookupAct (s : Store) (i : ℕ) : Option String :=
  (s.activityTypes.find? (fun p => p.1 == i)).map (fun p => p.2)

/-- The transit-guess columns of a journey row, with the guess id resolved
through the `ActivityTypes` table. -/
def storedTransit (s : Store) (jid : ℕ) : Option (Option String × Option Q) :=
  (rowById s jid).map (fun r => (r.pubTransGuessId.bind (lookupAct s), r.pTransGuess))

/-- Well-formedness of the `ActivityTypes` table: ids below the
`AUTOINCREMENT` counter and no duplicate ids (both hold for every table the
program itself builds). -/
def ActTableWF (s : Store) : Prop :=
  (∀ p ∈ s.activityTypes, p.1 < s.nextActivityId) ∧
    (s.activityTypes.map Prod.fst).Nodup

/-- The last transit-mode guess of the suprathreshold prefix of a ranked
guess list (the guess whose transit columns survive the `a ≥ 1` scan). -/
def lastSupraTransit (cfg : Config) : List Guess → Option Guess
  | [] => none
  | g :: gs =>
    if Q.blt g.probability cfg.threshold then none
    else
      match lastSupraTransit cfg gs with
      | some g' => some g'
      | none => if cfg.modes.contains g.activityType then some g else none

/-- The ordered start instants of the Vienna transit candidates among a
journey list (rows `get_public_transit_sql` reports with counter 1). -/
def candTimes (locations : List (ℕ × String)) : List JourneyRow → List DateTime
  | [] => []
  | j :: js =>
    match get_public_transit_sql locations j with
    | some (_, some t) => t :: candTimes locations js
    | _ => candTimes locations js

/-- Rounded whole-minute gap between two instants. -/
def gapMinutes (prev t : DateTime) : ℤ :=
  pyRound ⟨totalSeconds t - totalSeconds prev, 60⟩

/-- Claimed merge rule, continuation after the first candidate: each later
candidate is counted exactly when its rounded minute gap from the
immediately preceding candidate exceeds the gap parameter, and the anchor
slides to every candidate. -/
def claimGo (ticket_time : Q) (prev : DateTime) : List DateTime → ℕ
  | [] => 0
  | t :: ts =>
    (if Q.blt ticket_time (Q.ofInt (gapMinutes prev t)) then 1 else 0)
      + claimGo ticket_time t ts

/-- Claimed merge count over the candidate start instants: the first
candidate always counts, the rest follow the sliding-anchor rule. -/
def claimTripCount (ticket_time : Q) : List DateTime → ℕ
  | [] => 0
  | t :: ts => 1 + claimGo ticket_time t ts

/-- Identity-shaped projection of a journey row: the fields no `UPDATE`
statement of the program ever changes. -/
def keyE (r : JourneyRow) : ℕ × String × String := (r.id, r.startTime, r.endTime)

/-- `keyE` together with the completion marker (changed only by
`markComplete`). -/
def keyC (r : JourneyRow) : ℕ × String × String × Bool :=
  (r.id, r.startTime, r.endTime, r.complete)

/-- A start instant already stored as a complete journey. -/
def CompleteAt (s : Store) (st : String) : Prop :=
  ∃ r, findByStart s st = some r ∧ r.complete = true

/-- A timeline item that `fill_sql` is guaranteed to leave the store
unchanged on: a non-segment dict, an empty guess list, a sub-threshold
rank-0 guess, or a start instant already stored complete. -/
def ItemSettled (cfg : Config) (s : Store) : TimelineItem → Prop
  | .other => True
  | .activitySegment seg =>
    match seg.activities with
    | [] => True
    | g0 :: _ =>
      Q.blt g0.probability cfg.threshold = true ∨
        (∃ st et row, get_time seg.startTimestamp = .ok st ∧
          get_time seg.endTimestamp = .ok et ∧
          findByStart s st = some row ∧ row.complete = true)

/-! ## Concrete program inputs used by the claims -/

/-- The configured transit-mode set (`public_transit_modes`). -/
def pubModes : List String := ["IN_BUS", "IN_SUBWAY", "IN_TRAIN", "IN_TRAM"]

/-- The default configuration: `threshold_P = 30.0` with `pubModes`. -/
def cfgV : Config := ⟨Q.ofInt 30, pubModes⟩

/-- `ticket_time = 40.0`. -/
def ticketQ : Q := Q.ofInt 40

/-- A resolver whose transport layer is down: `urlopen` raises on every
call. -/
def resolverDown : Resolver := fun _ => .transportFailure

/-- A resolver that always answers with a non-`'OK'` status. -/
def resolverNoStatus : Resolver := fun _ => .response "ERROR" []

/-- A plain walking segment with one suprathreshold guess. -/
def segW : Segment :=
  ⟨"2023-07-01T10:00:00.000Z", "2023-07-01T10:30:00.000Z",
   (481000000, 163000000), (482000000, 164000000),
   [⟨"WALKING", Q.ofInt 90⟩]⟩

/-- A segment whose rank-0 guess is suprathreshold and not a transit mode,
followed by two suprathreshold transit-mode guesses. -/
def segC1 : Segment :=
  ⟨"2023-07-01T15:54:25.881Z", "2023-07-01T16:54:25.881Z",
   (481000000, 163000000), (482000000, 164000000),
   [⟨"WALKING", Q.ofInt 90⟩, ⟨"IN_BUS", Q.ofInt 60⟩, ⟨"IN_TRAM", Q.ofInt 50⟩]⟩

/-- A segment whose only guess is below the confidence threshold. -/
def segSub : Segment :=
  ⟨"2023-07-03T10:00:00.000Z", "2023-07-03T10:30:00.000Z",
   (481000000, 163000000), (482000000, 164000000),
   [⟨"WALKING", Q.ofInt 10⟩]⟩

/-- A segment whose start instant matches neither timestamp format. -/
def segBadTime : Segment :=
  ⟨"not-a-timestamp", "2023-07-01T11:30:00.000Z",
   (481000000, 163000000), (482000000, 164000000),
   [⟨"WALKING", Q.ofInt 90⟩]⟩

/-- First segment of the duplicate-`EndTime` pair. -/
def segE1 : Segment :=
  ⟨"2023-07-02T08:00:00.000Z", "2023-07-02T10:00:00.000Z",
   (481000000, 163000000), (482000000, 164000000),
   [⟨"WALKING", Q.ofInt 90⟩]⟩

/-- Second segment: a different start instant but the same end instant as
`segE1`. -/
def segE2 : Segment :=
  ⟨"2023-07-02T09:00:00.000Z", "2023-07-02T10:00:00.000Z",
   (481000000, 163000000), (482000000, 164000000),
   [⟨"WALKING", Q.ofInt 90⟩]⟩

/-- The store produced by ingesting `segW` into an empty store through
`resolverNoStatus`. -/
def storeW : Store :=
  ⟨[⟨1, "2023-07-01 10:00:00", "2023-07-01 10:30:00", some 1, some 1, some 1,
     some ⟨9000, 100⟩, none, none, true⟩],
   2, [(1, "WALKING")], 2, [(1, "Unidentified")], 2⟩

/-- The store produced by ingesting `segC1` into an empty store through
`resolverNoStatus`: the transit columns hold `IN_TRAM` (id 3), the last
suprathreshold transit guess. -/
def storeC1 : Store :=
  ⟨[⟨1, "2023-07-01 15:54:25", "2023-07-01 16:54:25", some 1, some 1, some 1,
     some ⟨9000, 100⟩, some 3, some ⟨5000, 100⟩, true⟩],
   2, [(1, "WALKING"), (2, "IN_BUS"), (3, "IN_TRAM")], 4,
   [(1, "Unidentified")], 2⟩

/-- The `Locations` table holding only Vienna. -/
def viennaLocs : List (ℕ × String) := [(1, "Vienna, Austria")]

/-- A complete Vienna transit candidate row. -/
def mkCandRow (i : ℕ) (st et : String) : JourneyRow :=
  ⟨i, st, et, some 1, some 1, some 1, some ⟨9000, 100⟩, some 1,
   some ⟨9000, 100⟩, true⟩

/-- Candidate start instants `[T, T+5, T+50]` minutes. -/
def storeGap2 : Store :=
  ⟨[mkCandRow 1 "2023-05-01 10:00:00" "2023-05-01 10:04:00",
    mkCandRow 2 "2023-05-01 10:05:00" "2023-05-01 10:09:00",
    mkCandRow 3 "2023-05-01 10:50:00" "2023-05-01 10:59:00"],
   4, [(1, "IN_BUS")], 2, viennaLocs, 2⟩

/-- Candidate start instants `[T, T+10, T+45]` minutes. -/
def storeGap1 : Store :=
  ⟨[mkCandRow 1 "2023-05-01 10:00:00" "2023-05-01 10:04:00",
    mkCandRow 2 "2023-05-01 10:10:00" "2023-05-01 10:14:00",
    mkCandRow 3 "2023-05-01 10:45:00" "2023-05-01 10:59:00"],
   4, [(1, "IN_BUS")], 2, viennaLocs, 2⟩

/-- A journey row with only times and the completion mark set. -/
def mkPlainRow (i : ℕ) (st et : String) : JourneyRow :=
  ⟨i, st, et, none, none, none, none, none, none, true⟩

/-- Two journeys on consecutive calendar dates whose second start has an
earlier time of day than the first. -/
def storeSpan : Store :=
  ⟨[mkPlainRow 1 "2023-03-10 12:00:00" "2023-03-10 12:30:00",
    mkPlainRow 2 "2023-03-11 06:00:00" "2023-03-11 06:30:00"],
   3, [], 1, [], 1⟩

/-- A complete walking journey row (activity id 1). -/
def mkWalkRow (i : ℕ) (st et : String) : JourneyRow :=
  ⟨i, st, et, some 1, some 1, some 1, some ⟨9000, 100⟩, none, none, true⟩

/-- Five walking journeys between March 10 and March 20, 2023. -/
def walkJourneys : List JourneyRow :=
  [mkWalkRow 1 "2023-03-10 08:00:00" "2023-03-10 08:30:00",
   mkWalkRow 2 "2023-03-12 09:00:00" "2023-03-12 09:30:00",
   mkWalkRow 3 "2023-03-15 10:00:00" "2023-03-15 10:30:00",
   mkWalkRow 4 "2023-03-18 11:00:00" "2023-03-18 11:30:00",
   mkWalkRow 5 "2023-03-20 18:00:00" "2023-03-20 18:30:00"]

/-! ## Helper lemmas -/

/-- A resolver response that is not a transport failure always yields a place
name: `get_city` returns a string for any status and result list. -/
lemma get_city_ok {r : ResolverResponse} (h : r ≠ .transportFailure) :
    ∃ nm, get_city r = .ok nm := by
  cases r with
  | transportFailure => exact absurd rfl h
  | response st rs =>
    by_cases hok : st ≠ "OK"
    · exact ⟨"Unidentified", by simp [get_city, hok]⟩
    · have hst : st = "OK" := not_not.mp hok
      subst hst
      exact ⟨_, rfl⟩

/-- A parsed stored timestamp has a time-of-day below one day. -/
lemma parse_time_bounds {ts : String} {dt : DateTime}
    (h : parseSqlDateTime ts = some dt) : timeSecs dt < 86400 := by
  unfold parseSqlDateTime at h
  split at h
  · split at h
    · rename_i hcond
      cases h
      simp only [timeSecs]
      omega
    · exact absurd h (by simp)
  · exact absurd h (by simp)

/-- A stored timestamp accepted by `get_time_read` is parse-valid. -/
lemma get_time_read_parse {ts : String} {dt : DateTime}
    (h : get_time_read ts = some dt) : parseSqlDateTime ts = some dt := by
  unfold get_time_read at h
  split at h
  · exact absurd h (by simp)
  · split at h
    · exact h
    · exact absurd h (by simp)

/-- Inversion of `read_sql`: a successful read exposes the sorted journey
list, the two boundary instants, and the period formula the code computes. -/
lemma read_sql_inv {store : Store} {T : Q} {js : List JourneyRow}
    {vf vl : DateTime} {p : ℤ} {c : ℕ}
    (h : read_sql store T = some (js, vf, vl, p, c)) :
    ∃ j0 rest jl, sortByStart store.journeys = j0 :: rest ∧
      (j0 :: rest).getLast? = some jl ∧
      get_time_read j0.startTime = some vf ∧
      get_time_read jl.startTime = some vl ∧
      p = (totalSeconds vl - totalSeconds vf).fdiv 86400 + 1 := by
  unfold read_sql at h
  split at h
  · exact absurd h (by simp)
  · rename_i j0 rest hs
    split at h
    · rename_i vf' jl hvf hl
      split at h
      · rename_i vl' hvl
        split at h
        · rename_i cnt hc
          simp only [Option.some.injEq, Prod.mk.injEq] at h
          obtain ⟨hjs, hvf2, hvl2, hp, hc2⟩ := h
          subst hvf2
          subst hvl2
          exact ⟨j0, rest, jl, hs, hl, hvf, hvl, hp.symm⟩
        · exact absurd h (by simp)
      · exact absurd h (by simp)
    · exact absurd h (by simp)

/-- Floor division of a difference of day-and-second decompositions. -/
lemma fdiv_day_decomp (df dl tf tl : ℤ) (h1 : 0 ≤ tf) (h2 : tf < 86400)
    (h3 : 0 ≤ tl) (h4 : tl < 86400) :
    ((dl * 86400 + tl) - (df * 86400 + tf)).fdiv 86400
      = (dl - df) + (if tl < tf then -1 else 0) := by
  rw [Int.fdiv_eq_ediv _ (by norm_num)]
  split <;> omega

/-- `get_public_transit_sql` either crashes, reports a non-candidate with
counter 0, or reports a candidate with counter 1 and a start instant. -/
lemma gpt_shape (locs : List (ℕ × String)) (j : JourneyRow) :
    get_public_transit_sql locs j = none ∨
    get_public_transit_sql locs j = some (0, none) ∨
    ∃ t, get_public_transit_sql locs j = some (1, some t) := by
  unfold get_public_transit_sql
  cases hpt : j.pubTransGuessId with
  | none => simp
  | some g =>
    cases hsc : j.startCityId with
    | none => simp
    | some sc =>
      cases hnm : (locs.find? (fun p => p.1 == sc)).map (fun p => p.2) with
      | none => simp [hnm]
      | some nm =>
        simp only [hnm]
        split
        · cases hgt : get_time_read j.startTime with
          | none => exact .inl (by simp [hgt])
          | some t => exact .inr (.inr ⟨t, by simp [hgt]⟩)
        · simp

/-- The merge loop after the first candidate equals the claimed
sliding-anchor count over the remaining candidate instants. -/
lemma viennaLoop_some (locs : List (ℕ × String)) (T : Q) :
    ∀ (js : List JourneyRow) (cnt : ℕ) (prev : DateTime),
    (∀ j ∈ js, (get_public_transit_sql locs j).isSome) →
    viennaLoop locs T js cnt (some prev)
      = some (cnt + claimGo T prev (candTimes locs js)) := by
  intro js
  induction js with
  | nil => intro cnt prev _; simp [viennaLoop, claimGo, candTimes]
  | cons j js ih =>
    intro cnt prev h
    have hj := h j (by simp)
    have hrest : ∀ j' ∈ js, (get_public_transit_sql locs j').isSome :=
      fun j' hm => h j' (by simp [hm])
    rcases gpt_shape locs j with hs | hs | ⟨t, hs⟩
    · rw [hs] at hj; simp at hj
    · simp only [viennaLoop, hs, candTimes]
      exact ih cnt prev hrest
    · simp only [viennaLoop, hs, candTimes, claimGo, gapMinutes]
      cases Bool.eq_false_or_eq_true
          (Q.blt T (Q.ofInt (pyRound ⟨totalSeconds t - totalSeconds prev, 60⟩))) with
      | inl hb =>
        rw [if_pos hb, if_pos hb, ih (cnt + 1) t hrest]
        simp only [Option.some.injEq]
        omega
      | inr hb =>
        rw [if_neg (by simp [hb]), if_neg (by simp [hb]), ih cnt t hrest]
        simp

/-- The full merge loop equals the claimed count over the candidate
instants. -/
lemma viennaLoop_none (locs : List (ℕ × String)) (T : Q) :
    ∀ (js : List JourneyRow) (cnt : ℕ),
    (∀ j ∈ js, (get_public_transit_sql locs j).isSome) →
    viennaLoop locs T js cnt none
      = some (cnt + claimTripCount T (candTimes locs js)) := by
  intro js
  induction js with
  | nil => intro cnt _; simp [viennaLoop, claimTripCount, candTimes]
  | cons j js ih =>
    intro cnt h
    have hj := h j (by simp)
    have hrest : ∀ j' ∈ js, (get_public_transit_sql locs j').isSome :=
      fun j' hm => h j' (by simp [hm])
    rcases gpt_shape locs j with hs | hs | ⟨t, hs⟩
    · rw [hs] at hj; simp at hj
    · simp only [viennaLoop, hs, candTimes, claimTripCount]
      exact ih cnt hrest
    · simp only [viennaLoop, hs, candTimes, claimTripCount]
      rw [viennaLoop_some locs T js (cnt + 1) t hrest]
      simp only [Option.some.injEq]
      omega

/-- `find?` commutes with a map that leaves the predicate's verdict
unchanged. -/
lemma find?_map_pred {g : JourneyRow → JourneyRow} {p : JourneyRow → Bool}
    (hp : ∀ r, p (g r) = p r) (l : List JourneyRow) :
    (l.map g).find? p = (l.find? p).map g := by
  induction l with
  | nil => rfl
  | cons a l ih =>
    rw [List.map_cons, List.find?_cons, List.find?_cons]
    cases hpa : p a with
    | true => simp [hp a, hpa]
    | false => simp [hp a, hpa, ih]

/-- Two journey lists with the same key images have `find?` results with the
same key image, for a predicate that reads only the key. -/
lemma find?_congr_of_key {β : Type} (k : JourneyRow → β) (p : JourneyRow → Bool)
    (q : β → Bool) (hk : ∀ r, p r = q (k r)) :
    ∀ (l l' : List JourneyRow), l'.map k = l.map k →
      (l'.find? p).map k = (l.find? p).map k := by
  intro l
  induction l with
  | nil =>
    intro l' h
    simp only [List.map_nil, List.map_eq_nil_iff] at h
    simp [h]
  | cons a l ih =>
    intro l' h
    cases l' with
    | nil => simp at h
    | cons b l'' =>
      simp only [List.map_cons, List.cons.injEq] at h
      obtain ⟨hb, ht⟩ := h
      rw [List.find?_cons, List.find?_cons]
      have hpb : p b = p a := by rw [hk, hk, hb]
      cases hpa : p a with
      | true => simp [hpb, hpa, hb]
      | false =>
        simp only [hpb, hpa, cond_false]
        exact ih l'' ht

/-- `updateRow` preserves any per-row key that its field update preserves. -/
lemma updateRow_map_key {β : Type} (k : JourneyRow → β) (s : Store) (jid : ℕ)
    (f : JourneyRow → JourneyRow) (hf : ∀ r, k (f r) = k r) :
    (updateRow s jid f).journeys.map k = s.journeys.map k := by
  unfold updateRow
  rw [List.map_map]
  apply List.map_congr_left
  intro r _
  by_cases h : r.id = jid <;> simp [h, hf]

/-- `upsertActivity` never touches the `Journeys` table. -/
lemma upsertActivity_journeys (nm : String) (s : Store) :
    ((upsertActivity nm s).2).journeys = s.journeys := by
  unfold upsertActivity
  cases s.activityTypes.find? (fun p => p.2 == nm) <;> rfl

/-- `upsertLocation` never touches the `Journeys` table. -/
lemma upsertLocation_journeys (nm : String) (s : Store) :
    ((upsertLocation nm s).2).journeys = s.journeys := by
  unfold upsertLocation
  cases s.locations.find? (fun p => p.2 == nm) <;> rfl

/-- The `a ≥ 1` guess scan never changes id, times or completion marker of
any row. -/
lemma processRest_map_keyC (cfg : Config) (jid : ℕ) :
    ∀ (gs : List Guess) (s : Store),
      (processRest cfg jid gs s).journeys.map keyC = s.journeys.map keyC := by
  intro gs
  induction gs with
  | nil => intro s; rfl
  | cons g gs ih =>
    intro s
    unfold processRest
    split
    · rfl
    · split
      · rw [ih, setTransit, updateRow_map_key, upsertActivity_journeys]
        exact fun r => rfl
      · exact ih s

/-- `findByStart` after `updateRow` with a start-preserving update. -/
lemma findByStart_updateRow (s : Store) (jid : ℕ) (f : JourneyRow → JourneyRow)
    (hf : ∀ r, (f r).startTime = r.startTime) (st : String) :
    findByStart (updateRow s jid f) st
      = (findByStart s st).map (fun r => if r.id == jid then f r else r) := by
  unfold findByStart updateRow
  exact find?_map_pred (fun r => by by_cases h : r.id == jid <;> simp [h, hf]) _

/-- `rowById` after `updateRow` with an id-preserving update. -/
lemma rowById_updateRow (s : Store) (jid : ℕ) (f : JourneyRow → JourneyRow)
    (hf : ∀ r, (f r).id = r.id) (i : ℕ) :
    rowById (updateRow s jid f) i
      = (rowById s i).map (fun r => if r.id == jid then f r else r) := by
  unfold rowById updateRow
  exact find?_map_pred (fun r => by by_cases h : r.id == jid <;> simp [h, hf]) _

/-- `findByStart` respects `keyC`-equal journey tables. -/
lemma findByStart_congr {s s' : Store}
    (h : s'.journeys.map keyC = s.journeys.map keyC) (st : String) :
    (findByStart s' st).map keyC = (findByStart s st).map keyC :=
  find?_congr_of_key keyC _ (fun x => x.2.1 == st) (fun _ => rfl) _ _ h

/-- Equal `keyC` images give equal `keyE` images. -/
lemma map_keyE_of_map_keyC {l l' : List JourneyRow}
    (h : l'.map keyC = l.map keyC) : l'.map keyE = l.map keyE := by
  have hm : ∀ (m : List JourneyRow),
      m.map keyE = (m.map keyC).map (fun x => (x.1, x.2.1, x.2.2.1)) := by
    intro m
    rw [List.map_map]
    rfl
  rw [hm, hm, h]

/-- `markComplete` acts on `findByStart` results by completing the matching
id. -/
lemma markComplete_findByStart (s : Store) (jid : ℕ) (st : String) :
    findByStart (markComplete s jid) st
      = (findByStart s st).map
          (fun r => if r.id == jid then { r with complete := true } else r) :=
  findByStart_updateRow s jid (fun r => { r with complete := true })
    (fun _ => rfl) st

/-- The pre-completion pipeline changes no row's `keyC` projection. -/
lemma fillCore0_keyC (cfg : Config) (g0 : Guess) (rest : List Guess)
    (jid scid ecid : ℕ) (s : Store) :
    (fillCore0 cfg g0 rest jid scid ecid s).journeys.map keyC
      = s.journeys.map keyC := by
  unfold fillCore0
  split
  · rw [setTransit, updateRow_map_key, setActivity, updateRow_map_key,
      upsertActivity_journeys, setPlaces, updateRow_map_key]
    · exact fun r => rfl
    · exact fun r => rfl
    · exact fun r => rfl
  · rw [processRest_map_keyC, setActivity, updateRow_map_key,
      upsertActivity_journeys, setPlaces, updateRow_map_key]
    · exact fun r => rfl
    · exact fun r => rfl

/-- `fillCore` changes no row's id or times. -/
lemma fillCore_keyE (cfg : Config) (g0 : Guess) (rest : List Guess)
    (jid scid ecid : ℕ) (s : Store) :
    (fillCore cfg g0 rest jid scid ecid s).journeys.map keyE
      = s.journeys.map keyE := by
  unfold fillCore
  rw [markComplete, updateRow_map_key]
  · exact map_keyE_of_map_keyC (fillCore0_keyC cfg g0 rest jid scid ecid s)
  · exact fun r => rfl

/-- Through `fillCore`, a row found by start time keeps its id and times,
and its completion mark is set exactly when its id is the worked-on one. -/
lemma fillCore_findByStart {cfg : Config} {g0 : Guess} {rest : List Guess}
    {jid scid ecid : ℕ} {s : Store} {st : String} {r : JourneyRow}
    (h : findByStart s st = some r) :
    ∃ r', findByStart (fillCore cfg g0 rest jid scid ecid s) st = some r' ∧
      r'.id = r.id ∧ r'.startTime = r.startTime ∧ r'.endTime = r.endTime ∧
      r'.complete = (r.id == jid || r.complete) := by
  have h0 := findByStart_congr (fillCore0_keyC cfg g0 rest jid scid ecid s) st
  rw [h] at h0
  obtain ⟨rY, hrY, hkeq⟩ := Option.map_eq_some'.mp h0
  have hky : rY.id = r.id ∧ rY.startTime = r.startTime ∧
      rY.endTime = r.endTime ∧ rY.complete = r.complete := by
    simpa [keyC, Prod.ext_iff] using congrArg id hkeq
  obtain ⟨h1, h2, h3, h4⟩ := hky
  unfold fillCore
  rw [markComplete_findByStart, hrY]
  cases hid : (rY.id == jid) with
  | true =>
    have hid' : rY.id = jid := by simpa using hid
    refine ⟨{ rY with complete := true }, by simp [hid'], h1, h2, h3, ?_⟩
    rw [← h1, hid]
    simp
  | false =>
    have hid' : ¬rY.id = jid := by simpa using hid
    refine ⟨rY, by simp [hid'], h1, h2, h3, ?_⟩
    rw [h4, ← h1, hid]
    simp

/-- A successful `fillJourney` call increments the counter, changes no row's
id or times, and completes the found rows of the worked-on id. -/
lemma fillJourney_ok_facts {cfg : Config} {res : Resolver} {seg : Segment}
    {g0 : Guess} {rest : List Guess} {jid : ℕ} {s s' : Store} {n n' : ℕ}
    (h : fillJourney cfg res seg g0 rest jid s n = .ok (s', n')) :
    n' = n + 1 ∧
    s'.journeys.map keyE = s.journeys.map keyE ∧
    ∀ st r, findByStart s st = some r →
      ∃ r', findByStart s' st = some r' ∧ r'.id = r.id ∧
        r'.startTime = r.startTime ∧ r'.endTime = r.endTime ∧
        r'.complete = (r.id == jid || r.complete) := by
  cases hc1 : get_city (res (coordsOf seg.startLocation)) with
  | error e => unfold fillJourney at h; rw [hc1] at h; exact absurd h (by simp)
  | ok nm1 =>
    cases hc2 : get_city (res (coordsOf seg.endLocation)) with
    | error e =>
      unfold fillJourney at h
      rw [hc1, hc2] at h
      exact absurd h (by simp)
    | ok nm2 =>
      unfold fillJourney at h
      rw [hc1, hc2] at h
      simp only [Except.ok.injEq, Prod.mk.injEq] at h
      obtain ⟨hs', hn'⟩ := h
      subst hn'
      have hjs : s'.journeys.map keyE = s.journeys.map keyE := by
        rw [← hs', fillCore_keyE, upsertLocation_journeys, upsertLocation_journeys]
      refine ⟨rfl, hjs, ?_⟩
      intro st r hr
      have hr2 : findByStart ((upsertLocation nm2 ((upsertLocation nm1 s).2)).2) st
          = some r := by
        unfold findByStart at hr ⊢
        rw [upsertLocation_journeys, upsertLocation_journeys]
        exact hr
      rw [← hs']
      exact fillCore_findByStart hr2

/-- `fillJourney` succeeds whenever the resolver has no transport failure. -/
lemma fillJourney_ok_exists {cfg : Config} {res : Resolver} (seg : Segment)
    (g0 : Guess) (rest : List Guess) (jid : ℕ) (s : Store) (n : ℕ)
    (hres : ∀ c, res c ≠ .transportFailure) :
    ∃ s', fillJourney cfg res seg g0 rest jid s n = .ok (s', n + 1) := by
  obtain ⟨nm1, h1⟩ := get_city_ok (hres (coordsOf seg.startLocation))
  obtain ⟨nm2, h2⟩ := get_city_ok (hres (coordsOf seg.endLocation))
  unfold fillJourney
  rw [h1, h2]
  exact ⟨_, rfl⟩

/-- Inversion of a successful `insertBare`. -/
lemma insertBare_ok_facts {s : Store} {st et : String} {s1 : Store} {jid : ℕ}
    (h : insertBare s st et = .ok (s1, jid)) :
    jid = s.nextJourneyId ∧
    s1.journeys = s.journeys ++
      [{ id := s.nextJourneyId, startTime := st, endTime := et }] ∧
    s.journeys.any (fun r => r.startTime == st || r.endTime == et) = false := by
  unfold insertBare at h
  split at h
  · exact absurd h (by simp)
  · rename_i hany
    simp only [Except.ok.injEq, Prod.mk.injEq] at h
    obtain ⟨h1, h2⟩ := h
    refine ⟨h2.symm, ?_, by simpa using hany⟩
    rw [← h1]

/-- The bare row just inserted is found by its start time. -/
lemma insertBare_findByStart {s : Store} {st et : String} {s1 : Store}
    {jid : ℕ} (h : insertBare s st et = .ok (s1, jid)) :
    findByStart s1 st
      = some { id := s.nextJourneyId, startTime := st, endTime := et } := by
  obtain ⟨hjid, hj, hany⟩ := insertBare_ok_facts h
  unfold findByStart
  rw [hj, List.find?_append]
  have hnone : s.journeys.find? (fun r => r.startTime == st) = none := by
    rw [List.find?_eq_none]
    intro r hr
    have hor : (r.startTime == st || r.endTime == et) = false := by
      have := (List.any_eq_false.mp hany) r hr
      simpa using this
    rw [Bool.or_eq_false_iff] at hor
    simp [hor.1]
  rw [hnone]
  simp

/-- `fill_sql` distributes over batch concatenation. -/
lemma fill_sql_append (cfg : Config) (res : Resolver) :
    ∀ (a b : List TimelineItem) (s : Store) (n : ℕ),
    fill_sql cfg res (a ++ b) s n
      = match fill_sql cfg res a s n with
        | .ok p => fill_sql cfg res b p.1 p.2
        | .error e => .error e := by
  intro a
  induction a with
  | nil => intro b s n; rfl
  | cons item a ih =>
    intro b s n
    rw [List.cons_append]
    cases hp : processItem cfg res s n item with
    | error e => simp only [fill_sql, hp]
    | ok p =>
      simp only [fill_sql, hp]
      exact ih b p.1 p.2

/-- In a table with unique first components, `find?` by a member's key
returns that member. -/
lemma find?_fst_nodup {l : List (ℕ × String)} (hnd : (l.map Prod.fst).Nodup)
    {i : ℕ} {v : String} (hm : (i, v) ∈ l) :
    l.find? (fun q => q.1 == i) = some (i, v) := by
  induction l with
  | nil => simp at hm
  | cons a l ih =>
    simp only [List.map_cons, List.nodup_cons] at hnd
    rcases List.mem_cons.mp hm with heq | hmem
    · rw [← heq]
      simp [List.find?_cons]
    · rw [List.find?_cons]
      have hne : (a.1 == i) = false := by
        refine beq_eq_false_iff_ne.mpr ?_
        intro hai
        exact hnd.1 (hai ▸ List.mem_map_of_mem Prod.fst hmem)
      simp only [hne, cond_false]
      exact ih hnd.2 hmem

/-- `upsertActivity` preserves well-formedness of the activity table. -/
lemma upsertActivity_wf {s : Store} (h : ActTableWF s) (nm : String) :
    ActTableWF (upsertActivity nm s).2 := by
  unfold upsertActivity
  cases hf : s.activityTypes.find? (fun p => p.2 == nm) with
  | some p => exact h
  | none =>
    refine ⟨?_, ?_⟩
    · intro q hq
      rcases List.mem_append.mp hq with hq | hq
      · exact Nat.lt_succ_of_lt (h.1 q hq)
      · have : q = (s.nextActivityId, nm) := by simpa using hq
        rw [this]
        exact Nat.lt_succ_self _
    · rw [List.map_append]
      refine List.Nodup.append h.2 (List.nodup_singleton _) ?_
      intro a ha hb
      have hb' : a = s.nextActivityId := by simpa using hb
      obtain ⟨q, hq, hq1⟩ := List.mem_map.mp ha
      have := h.1 q hq
      omega

/-- The id returned by `upsertActivity` resolves to the upserted name. -/
lemma upsertActivity_lookup_self {s : Store} (h : ActTableWF s) (nm : String) :
    lookupAct (upsertActivity nm s).2 (upsertActivity nm s).1 = some nm := by
  unfold upsertActivity lookupAct
  cases hf : s.activityTypes.find? (fun p => p.2 == nm) with
  | some p =>
    dsimp only
    have hmem := List.mem_of_find?_eq_some hf
    have hpv : p.2 = nm := by simpa using List.find?_some hf
    have hfi : s.activityTypes.find? (fun q => q.1 == p.1) = some (p.1, p.2) :=
      find?_fst_nodup h.2 hmem
    rw [hfi]
    simp [hpv]
  | none =>
    dsimp only
    rw [List.find?_append]
    have hnone : s.activityTypes.find? (fun q => q.1 == s.nextActivityId)
        = none := by
      rw [List.find?_eq_none]
      intro q hq
      have := h.1 q hq
      simp only [beq_iff_eq]
      omega
    rw [hnone]
    simp

/-- Existing id-to-name bindings survive `upsertActivity`. -/
lemma lookupAct_mono {s : Store} (nm : String) {i : ℕ} {v : String}
    (hl : lookupAct s i = some v) :
    lookupAct (upsertActivity nm s).2 i = some v := by
  unfold lookupAct at hl
  unfold upsertActivity lookupAct
  cases hf : s.activityTypes.find? (fun p => p.2 == nm) with
  | some p => exact hl
  | none =>
    dsimp only
    rw [List.find?_append]
    cases hfi : s.activityTypes.find? (fun q => q.1 == i) with
    | none => rw [hfi] at hl; simp at hl
    | some q =>
      rw [hfi] at hl
      simp [hfi, hl]

/-- `rowById` ignores the activity table. -/
lemma rowById_upsertActivity (nm : String) (s : Store) (i : ℕ) :
    rowById (upsertActivity nm s).2 i = rowById s i := by
  unfold rowById
  rw [upsertActivity_journeys]

/-- A row found by id satisfies the id predicate. -/
lemma rowById_id {s : Store} {jid : ℕ} {r : JourneyRow}
    (h : rowById s jid = some r) : (r.id == jid) = true := by
  have := List.find?_some h
  simpa using this

/-- The `a ≥ 1` scan stores exactly the last suprathreshold transit-mode
guess: no transit match in the suprathreshold prefix leaves the store
untouched, and otherwise the transit columns of the worked-on row end up
holding the last such match (resolved through the activity dictionary) with
its rounded confidence. -/
lemma processRest_transit (cfg : Config) (jid : ℕ) :
    ∀ (gs : List Guess) (s : Store), ActTableWF s →
      (rowById s jid).isSome = true →
      (lastSupraTransit cfg gs = none → processRest cfg jid gs s = s) ∧
      (∀ g, lastSupraTransit cfg gs = some g →
        storedTransit (processRest cfg jid gs s) jid
          = some (some g.activityType, some (round2 g.probability))) := by
  intro gs
  induction gs with
  | nil =>
    intro s hwf hrow
    exact ⟨fun _ => rfl, fun g hg => by simp [lastSupraTransit] at hg⟩
  | cons g gs ih =>
    intro s hwf hrow
    obtain ⟨r, hr⟩ := Option.isSome_iff_exists.mp hrow
    have hrows2 : ∀ aid p,
        rowById (setTransit jid aid p (upsertActivity g.activityType s).2) jid
          = some { r with pubTransGuessId := some aid, pTransGuess := some p } := by
      intro aid p
      unfold setTransit
      rw [rowById_updateRow]
      · rw [rowById_upsertActivity, hr]
        have hid : r.id = jid := by simpa using rowById_id hr
        simp [hid]
      · exact fun r => rfl
    have hwf2 : ActTableWF
        (setTransit jid (upsertActivity g.activityType s).1
          (round2 g.probability) (upsertActivity g.activityType s).2) :=
      upsertActivity_wf hwf g.activityType
    have hrow2 : (rowById (setTransit jid (upsertActivity g.activityType s).1
        (round2 g.probability) (upsertActivity g.activityType s).2) jid).isSome
          = true := by
      rw [hrows2]
      rfl
    constructor
    · intro hnone
      unfold lastSupraTransit at hnone
      unfold processRest
      by_cases hb : Q.blt g.probability cfg.threshold
      · rw [if_pos hb]
      · rw [if_neg hb] at hnone
        cases hls : lastSupraTransit cfg gs with
        | some g' => rw [hls] at hnone; simp at hnone
        | none =>
          rw [hls] at hnone
          by_cases hc : cfg.modes.contains g.activityType
          · rw [if_pos hc] at hnone
            simp at hnone
          · rw [if_neg (by simpa using hb), if_neg (by simpa using hc)]
            exact (ih s hwf hrow).1 hls
    · intro gl hsome
      unfold lastSupraTransit at hsome
      by_cases hb : Q.blt g.probability cfg.threshold
      · rw [if_pos hb] at hsome
        simp at hsome
      · rw [if_neg hb] at hsome
        unfold processRest
        rw [if_neg (by simpa using hb)]
        cases hls : lastSupraTransit cfg gs with
        | some g' =>
          rw [hls] at hsome
          have hgl : g' = gl := by simpa using hsome
          subst hgl
          by_cases hc : cfg.modes.contains g.activityType
          · rw [if_pos (by simpa using hc)]
            exact (ih _ hwf2 hrow2).2 g' hls
          · rw [if_neg (by simpa using hc)]
            exact (ih s hwf hrow).2 g' hls
        | none =>
          rw [hls] at hsome
          by_cases hc : cfg.modes.contains g.activityType
          · rw [if_pos hc] at hsome
            have hgl : g = gl := by simpa using hsome
            subst hgl
            rw [if_pos (by simpa using hc)]
            rw [(ih _ hwf2 hrow2).1 hls]
            unfold storedTransit
            rw [hrows2]
            have hlook : lookupAct
                (setTransit jid (upsertActivity g.activityType s).1
                  (round2 g.probability) (upsertActivity g.activityType s).2)
                (upsertActivity g.activityType s).1
                = some g.activityType :=
              upsertActivity_lookup_self hwf g.activityType
            simp [hlook]
          · rw [if_neg hc] at hsome
            simp at hsome

/-- A settled item is a no-op for `processItem`. -/
lemma processItem_settled_noop {cfg : Config} {res : Resolver} {s : Store}
    {n : ℕ} {item : TimelineItem} (h : ItemSettled cfg s item) :
    processItem cfg res s n item = .ok (s, n) := by
  cases item with
  | other => rfl
  | activitySegment seg =>
    unfold ItemSettled at h
    unfold processItem processSegment
    dsimp only at h ⊢
    cases hact : seg.activities with
    | nil => rfl
    | cons g0 rest =>
      rw [hact] at h
      dsimp only at h ⊢
      rcases h with hb | ⟨st, et, row, hst, het, hrow, hcomp⟩
      · rw [if_pos hb]
      · by_cases hb : Q.blt g0.probability cfg.threshold = true
        · rw [if_pos hb]
        · rw [if_neg hb, hst, het]
          dsimp only
          rw [hrow]
          dsimp only
          rw [if_pos hcomp]

/-- A successfully processed item is settled in the resulting store. -/
lemma processItem_ok_settles {cfg : Config} {res : Resolver} {s : Store}
    {n : ℕ} {item : TimelineItem} {s' : Store} {n' : ℕ}
    (h : processItem cfg res s n item = .ok (s', n')) :
    ItemSettled cfg s' item := by
  cases item with
  | other => trivial
  | activitySegment seg =>
    unfold processItem processSegment at h
    unfold ItemSettled
    dsimp only at h ⊢
    cases hact : seg.activities with
    | nil => trivial
    | cons g0 rest =>
      rw [hact] at h
      dsimp only at h ⊢
      by_cases hb : Q.blt g0.probability cfg.threshold = true
      · exact .inl hb
      · right
        rw [if_neg hb] at h
        cases hst : get_time seg.startTimestamp with
        | error e => rw [hst] at h; simp at h
        | ok st =>
          cases het : get_time seg.endTimestamp with
          | error e => rw [hst, het] at h; simp at h
          | ok et =>
            rw [hst, het] at h
            dsimp only at h
            cases hrow : findByStart s st with
            | some row =>
              rw [hrow] at h
              dsimp only at h
              by_cases hcomp : row.complete = true
              · rw [if_pos hcomp] at h
                simp only [Except.ok.injEq, Prod.mk.injEq] at h
                obtain ⟨hs, -⟩ := h
                subst hs
                exact ⟨st, et, row, rfl, rfl, hrow, hcomp⟩
              · rw [if_neg hcomp] at h
                obtain ⟨-, -, hfind⟩ := fillJourney_ok_facts h
                obtain ⟨r', hr', -, -, -, hcompl⟩ := hfind st row hrow
                refine ⟨st, et, r', rfl, rfl, hr', ?_⟩
                rw [hcompl]
                simp
            | none =>
              rw [hrow] at h
              dsimp only at h
              cases hins : insertBare s st et with
              | error e => rw [hins] at h; simp at h
              | ok q =>
                obtain ⟨s1, jid⟩ := q
                rw [hins] at h
                dsimp only at h
                have hfb := insertBare_findByStart hins
                obtain ⟨-, -, hfind⟩ := fillJourney_ok_facts h
                obtain ⟨r', hr', -, -, -, hcompl⟩ := hfind st _ hfb
                refine ⟨st, et, r', rfl, rfl, hr', ?_⟩
                rw [hcompl]
                obtain ⟨hjid, -, -⟩ := insertBare_ok_facts hins
                subst hjid
                simp

/-- `processItem` never unsets a stored completion: a complete start instant
stays complete. -/
lemma processItem_preserves_completeAt {cfg : Config} {res : Resolver}
    {s : Store} {n : ℕ} {item : TimelineItem} {s' : Store} {n' : ℕ}
    {st0 : String} (h : processItem cfg res s n item = .ok (s', n'))
    (hc : CompleteAt s st0) : CompleteAt s' st0 := by
  obtain ⟨r0, hr0, hcomp0⟩ := hc
  cases item with
  | other =>
    simp only [processItem, Except.ok.injEq, Prod.mk.injEq] at h
    obtain ⟨hs, -⟩ := h
    exact hs ▸ ⟨r0, hr0, hcomp0⟩
  | activitySegment seg =>
    unfold processItem processSegment at h
    dsimp only at h
    cases hact : seg.activities with
    | nil =>
      rw [hact] at h
      simp only [Except.ok.injEq, Prod.mk.injEq] at h
      obtain ⟨hs, -⟩ := h
      exact hs ▸ ⟨r0, hr0, hcomp0⟩
    | cons g0 rest =>
      rw [hact] at h
      dsimp only at h
      by_cases hb : Q.blt g0.probability cfg.threshold = true
      · rw [if_pos hb] at h
        simp only [Except.ok.injEq, Prod.mk.injEq] at h
        obtain ⟨hs, -⟩ := h
        exact hs ▸ ⟨r0, hr0, hcomp0⟩
      · rw [if_neg hb] at h
        cases hst : get_time seg.startTimestamp with
        | error e => rw [hst] at h; simp at h
        | ok st =>
          cases het : get_time seg.endTimestamp with
          | error e => rw [hst, het] at h; simp at h
          | ok et =>
            rw [hst, het] at h
            dsimp only at h
            cases hrow : findByStart s st with
            | some row =>
              rw [hrow] at h
              dsimp only at h
              by_cases hcomp : row.complete = true
              · rw [if_pos hcomp] at h
                simp only [Except.ok.injEq, Prod.mk.injEq] at h
                obtain ⟨hs, -⟩ := h
                exact hs ▸ ⟨r0, hr0, hcomp0⟩
              · rw [if_neg hcomp] at h
                obtain ⟨-, -, hfind⟩ := fillJourney_ok_facts h
                obtain ⟨r', hr', -, -, -, hcompl⟩ := hfind st0 r0 hr0
                refine ⟨r', hr', ?_⟩
                rw [hcompl, hcomp0]
                simp
            | none =>
              rw [hrow] at h
              dsimp only at h
              cases hins : insertBare s st et with
              | error e => rw [hins] at h; simp at h
              | ok q =>
                obtain ⟨s1, jid⟩ := q
                rw [hins] at h
                dsimp only at h
                obtain ⟨-, hj1, -⟩ := insertBare_ok_facts hins
                have hr1 : findByStart s1 st0 = some r0 := by
                  unfold findByStart at hr0 ⊢
                  rw [hj1, List.find?_append, hr0]
                  rfl
                obtain ⟨-, -, hfind⟩ := fillJourney_ok_facts h
                obtain ⟨r', hr', -, -, -, hcompl⟩ := hfind st0 r0 hr1
                refine ⟨r', hr', ?_⟩
                rw [hcompl, hcomp0]
                simp

/-- `fill_sql` never unsets a stored completion. -/
lemma fill_sql_preserves_completeAt {cfg : Config} {res : Resolver} :
    ∀ {data : List TimelineItem} {s : Store} {n : ℕ} {s1 : Store} {n1 : ℕ}
      {st0 : String}, fill_sql cfg res data s n = .ok (s1, n1) →
      CompleteAt s st0 → CompleteAt s1 st0 := by
  intro data
  induction data with
  | nil =>
    intro s n s1 n1 st0 h hc
    simp only [fill_sql, Except.ok.injEq, Prod.mk.injEq] at h
    obtain ⟨hs, -⟩ := h
    exact hs ▸ hc
  | cons item data ih =>
    intro s n s1 n1 st0 h hc
    unfold fill_sql at h
    cases hp : processItem cfg res s n item with
    | error e => rw [hp] at h; simp at h
    | ok q =>
      rw [hp] at h
      exact ih h (processItem_preserves_completeAt hp hc)

/-- Settledness of an item survives further successful ingestion. -/
lemma fill_sql_preserves_settled {cfg : Config} {res : Resolver}
    {data : List TimelineItem} {s : Store} {n : ℕ} {s1 : Store} {n1 : ℕ}
    {item : TimelineItem} (h : fill_sql cfg res data s n = .ok (s1, n1))
    (hi : ItemSettled cfg s item) : ItemSettled cfg s1 item := by
  cases item with
  | other => trivial
  | activitySegment seg =>
    unfold ItemSettled at hi ⊢
    dsimp only at hi ⊢
    cases hact : seg.activities with
    | nil => trivial
    | cons g0 rest =>
      rw [hact] at hi
      dsimp only at hi ⊢
      rcases hi with hb | ⟨st, et, row, hst, het, hrow, hcomp⟩
      · exact .inl hb
      · obtain ⟨r', hr', hcomp'⟩ :=
          fill_sql_preserves_completeAt h ⟨row, hrow, hcomp⟩
        exact .inr ⟨st, et, r', hst, het, hr', hcomp'⟩

/-- After a successful run, every item of the batch is settled. -/
lemma fill_sql_settles_all {cfg : Config} {res : Resolver} :
    ∀ {data : List TimelineItem} {s : Store} {n : ℕ} {s1 : Store} {n1 : ℕ},
      fill_sql cfg res data s n = .ok (s1, n1) →
      ∀ item ∈ data, ItemSettled cfg s1 item := by
  intro data
  induction data with
  | nil => intro s n s1 n1 _ item hm; simp at hm
  | cons it data ih =>
    intro s n s1 n1 h item hm
    unfold fill_sql at h
    cases hp : processItem cfg res s n it with
    | error e => rw [hp] at h; simp at h
    | ok q =>
      rw [hp] at h
      rcases List.mem_cons.mp hm with heq | hmem
      · subst heq
        exact fill_sql_preserves_settled h (processItem_ok_settles hp)
      · exact ih h item hmem

/-- A batch of settled items is a complete no-op for `fill_sql`. -/
lemma fill_sql_of_settled {cfg : Config} {res : Resolver} :
    ∀ {data : List TimelineItem} {s : Store} {n : ℕ},
      (∀ item ∈ data, ItemSettled cfg s item) →
      fill_sql cfg res data s n = .ok (s, n) := by
  intro data
  induction data with
  | nil => intro s n _; rfl
  | cons item data ih =>
    intro s n hall
    unfold fill_sql
    rw [processItem_settled_noop (hall item (by simp))]
    exact ih (fun it hm => hall it (by simp [hm]))

/-! ## Claims -/

/-- **C10** (confirmed): with an empty journey table, the read stage fails
(`journeys[0]` raises `IndexError`, modelled by `none`) instead of
returning a zero count and an empty period: at least one stored journey is
an unstated precondition of the analysis stage. -/
theorem C10_empty_store_read_fails (s : Store) (t : Q) (h : s.journeys = []) :
    read_sql s t = none := by
  unfold read_sql
  rw [h]
  rfl

/-- Witness for `C10_empty_store_read_fails` at the freshly created store. -/
theorem C10_witness : read_sql emptyStore ticketQ = none :=
  C10_empty_store_read_fails emptyStore ticketQ rfl

/-- **C7** (code_bug): evaluating `activities_over_time` on the March 10–20
dataset with five WALKING journeys.  The code reports `Days = 20` for
March (the start-day clip to 22 is overwritten by the end-day clip), while
the claim and the spec require the clipped day count 11; the WALKING count
of 5 and the explicit per-category entries are as claimed. -/
theorem C7_march_days :
    activities_over_time pubModes [(1, "WALKING")] walkJourneys
      ⟨2023, 3, 10, 8, 0, 0⟩ ⟨2023, 3, 20, 18, 0, 0⟩
      = some (["WALKING"],
          [("March 2023", ⟨20, [("WALKING", 5)]⟩)],
          [("March 2023", [("WALKING", ⟨25, 100⟩)])]) ∧
    (20 : ℤ) ≠ 11 := ⟨rfl, by decide⟩

/-- **C8** counterexample: for starts `2023-03-10 12:00:00` and
`2023-03-11 06:00:00` the code reports a period of 1 day, while the
claim's calendar-date formula `(latest.date − earliest.date).days + 1`
gives 2: the reported period does depend on the time-of-day components. -/
theorem C8_counterexample :
    (read_sql storeSpan ticketQ).map (fun r => r.2.2.2.1) = some 1 ∧
    ((dateOrdinal 2023 3 11 : ℤ) - dateOrdinal 2023 3 10) + 1 = 2 ∧
    (1 : ℤ) ≠ 2 := ⟨rfl, by decide, by decide⟩

/-- **C8** (corrected): the reported period is
`(latest − earliest).days + 1` computed on the full instants
(`timedelta.days` floors), which equals the calendar-date span `+ 1` only
when the latest time-of-day is not earlier than the earliest; otherwise it
is one day less. -/
theorem C8_period_from_instants (store : Store) (T : Q) (js : List JourneyRow)
    (vf vl : DateTime) (p : ℤ) (c : ℕ)
    (h : read_sql store T = some (js, vf, vl, p, c)) :
    p = (totalSeconds vl - totalSeconds vf).fdiv 86400 + 1 ∧
    p = ((dateOrdinal vl.year vl.month vl.day : ℤ)
          - dateOrdinal vf.year vf.month vf.day) + 1
        - (if timeSecs vl < timeSecs vf then 1 else 0) := by
  obtain ⟨j0, rest, jl, -, -, hvf, hvl, hp⟩ := read_sql_inv h
  have bf := parse_time_bounds (get_time_read_parse hvf)
  have bl := parse_time_bounds (get_time_read_parse hvl)
  refine ⟨hp, ?_⟩
  rw [hp]
  unfold totalSeconds
  rw [fdiv_day_decomp _ _ _ _ (by positivity) (by exact_mod_cast bf)
    (by positivity) (by exact_mod_cast bl)]
  have : ((timeSecs vl : ℤ) < (timeSecs vf : ℤ)) ↔ (timeSecs vl < timeSecs vf) := by
    exact_mod_cast Iff.rfl
  split <;> split <;> omega

/-- Witness for `C8_period_from_instants` at the two-journey store. -/
theorem C8_witness :
    (1 : ℤ) = (totalSeconds ⟨2023, 3, 11, 6, 0, 0⟩
                - totalSeconds ⟨2023, 3, 10, 12, 0, 0⟩).fdiv 86400 + 1 ∧
    (1 : ℤ) = ((dateOrdinal 2023 3 11 : ℤ) - dateOrdinal 2023 3 10) + 1
        - (if timeSecs ⟨2023, 3, 11, 6, 0, 0⟩ < timeSecs ⟨2023, 3, 10, 12, 0, 0⟩
           then 1 else 0) :=
  C8_period_from_instants storeSpan ticketQ storeSpan.journeys
    ⟨2023, 3, 10, 12, 0, 0⟩ ⟨2023, 3, 11, 6, 0, 0⟩ 1 0 (by rfl)

/-- **C3** (confirmed): ingestion is idempotent.  A successful run settles
every item of its batch, so running the same batch again returns the very
same store and counter — hence `countComplete` is unchanged, no journey row
(duplicate or otherwise) is inserted — and a segment whose start instant is
already stored complete is processed as a no-op. -/
theorem C3_idempotent :
    (∀ (cfg : Config) (res : Resolver) (data : List TimelineItem)
        (s : Store) (n : ℕ) (s1 : Store) (n1 : ℕ),
      fill_sql cfg res data s n = .ok (s1, n1) →
      fill_sql cfg res data s1 n1 = .ok (s1, n1) ∧
      (∀ s2 n2, fill_sql cfg res data s1 n1 = .ok (s2, n2) →
        countComplete s2 = countComplete s1 ∧ s2.journeys = s1.journeys)) ∧
    (∀ (cfg : Config) (res : Resolver) (seg : Segment) (s : Store) (n : ℕ)
        (st et : String) (row : JourneyRow),
      get_time seg.startTimestamp = .ok st →
      get_time seg.endTimestamp = .ok et →
      findByStart s st = some row → row.complete = true →
      processSegment cfg res seg s n = .ok (s, n)) := by
  constructor
  · intro cfg res data s n s1 n1 h
    have hrun2 : fill_sql cfg res data s1 n1 = .ok (s1, n1) :=
      fill_sql_of_settled (fun item hm => fill_sql_settles_all h item hm)
    refine ⟨hrun2, ?_⟩
    intro s2 n2 h2
    rw [hrun2] at h2
    simp only [Except.ok.injEq, Prod.mk.injEq] at h2
    obtain ⟨hs, -⟩ := h2
    rw [hs]
    exact ⟨rfl, rfl⟩
  · intro cfg res seg s n st et row hst het hrow hcomp
    cases hact : seg.activities with
    | nil =>
      unfold processSegment
      rw [hact]
    | cons g0 rest =>
      have hset : ItemSettled cfg s (.activitySegment seg) := by
        unfold ItemSettled
        dsimp only
        rw [hact]
        dsimp only
        by_cases hb : Q.blt g0.probability cfg.threshold = true
        · exact .inl hb
        · exact .inr ⟨st, et, row, hst, het, hrow, hcomp⟩
      show processItem cfg res s n (.activitySegment seg) = .ok (s, n)
      exact processItem_settled_noop hset

/-- Witness for `C3_idempotent`: re-ingesting the `segW` batch into the
store it produced is a no-op. -/
theorem C3_witness :
    fill_sql cfgV resolverNoStatus [.activitySegment segW] storeW 1
      = .ok (storeW, 1) :=
  ((C3_idempotent.1 cfgV resolverNoStatus [.activitySegment segW]
    emptyStore 0 storeW 1) (by rfl)).1

/-- **C4** counterexample: with the resolver's transport layer down,
ingestion of a well-formed segment aborts with a transport error — a
resolution failure is propagated as a hard failure, contrary to the claim;
moreover a non-`'OK'` status yields the bare string `"Unidentified"`, not
the `"Unidentified, Unidentified"` sentinel the claim names. -/
theorem C4_counterexample :
    fill_sql cfgV resolverDown [.activitySegment segW] emptyStore 0
      = .error .transportError ∧
    get_city (ResolverResponse.response "ERROR" []) = .ok "Unidentified" ∧
    "Unidentified" ≠ "Unidentified, Unidentified" := ⟨rfl, rfl, by decide⟩

/-- **C4** (corrected): a non-`'OK'` status is recovered locally as the bare
`"Unidentified"` string and ingestion proceeds; any non-transport response
yields some place name; but a transport failure of the resolution service
propagates and aborts ingestion. -/
theorem C4_resolution_fallback :
    (∀ (status : String) (results : List GeoResult), status ≠ "OK" →
        get_city (.response status results) = .ok "Unidentified") ∧
    get_city .transportFailure = .error .transportError ∧
    (∀ r : ResolverResponse, r ≠ .transportFailure → ∃ nm, get_city r = .ok nm) ∧
    fill_sql cfgV resolverNoStatus [.activitySegment segW] emptyStore 0
      = .ok (storeW, 1) := by
  refine ⟨?_, rfl, fun r h => get_city_ok h, rfl⟩
  intro st rs h
  unfold get_city
  simp [h]

/-- Witness for `C4_resolution_fallback` at a concrete failed status. -/
theorem C4_witness :
    get_city (ResolverResponse.response "ZERO_RESULTS" [])
      = .ok "Unidentified" :=
  C4_resolution_fallback.1 "ZERO_RESULTS" [] (by decide)

/-- **C1** counterexample: for `segC1` (rank 0 `WALKING` 90%, then `IN_BUS`
60% and `IN_TRAM` 50%, threshold 30%) ingestion stores `IN_TRAM` — the
*last* suprathreshold transit guess — as the transit guess, although the
first transit-mode match in rank order is `IN_BUS`: the scan does not stop
at the first transit match and a later suprathreshold transit guess does
replace it. -/
theorem C1_counterexample :
    fill_sql cfgV resolverNoStatus [.activitySegment segC1] emptyStore 0
      = .ok (storeC1, 1) ∧
    storedTransit storeC1 1 = some (some "IN_TRAM", some ⟨5000, 100⟩) ∧
    (segC1.activities.find? (fun g => pubModes.contains g.activityType)).map
      (fun g => g.activityType) = some "IN_BUS" ∧
    "IN_TRAM" ≠ "IN_BUS" := ⟨rfl, rfl, rfl, by decide⟩

/-- **C1** (corrected): the `a ≥ 1` guess scan of ingestion stores as
`best_transit_guess` the LAST transit-mode match of the suprathreshold
prefix of the guess list — each later suprathreshold transit guess
overwrites the earlier one and the scan does not stop at a transit match —
and concretely, ingesting `segC1` leaves `IN_TRAM`, not the first-by-rank
`IN_BUS`, in the transit columns. -/
theorem C1_last_transit_wins :
    (∀ (cfg : Config) (jid : ℕ) (gs : List Guess) (s : Store),
      ActTableWF s → (rowById s jid).isSome = true →
      (lastSupraTransit cfg gs = none → processRest cfg jid gs s = s) ∧
      (∀ g, lastSupraTransit cfg gs = some g →
        storedTransit (processRest cfg jid gs s) jid
          = some (some g.activityType, some (round2 g.probability)))) ∧
    fill_sql cfgV resolverNoStatus [.activitySegment segC1] emptyStore 0
      = .ok (storeC1, 1) ∧
    storedTransit storeC1 1 = some (some "IN_TRAM", some ⟨5000, 100⟩) :=
  ⟨fun cfg jid gs s hwf hrow => processRest_transit cfg jid gs s hwf hrow,
   rfl, rfl⟩

/-- Witness for `C1_last_transit_wins` on the tail guesses of `segC1`. -/
theorem C1_witness :
    storedTransit
      (processRest cfgV 1
        [⟨"IN_BUS", Q.ofInt 60⟩, ⟨"IN_TRAM", Q.ofInt 50⟩] storeW) 1
      = some (some "IN_TRAM", some (round2 (Q.ofInt 50))) :=
  (C1_last_transit_wins.1 cfgV 1
    [⟨"IN_BUS", Q.ofInt 60⟩, ⟨"IN_TRAM", Q.ofInt 50⟩] storeW
    ⟨by decide, by decide⟩ rfl).2 ⟨"IN_TRAM", Q.ofInt 50⟩ rfl

/-- **C2** counterexample: a segment whose only guess is sub-threshold is
skipped entirely — the store is unchanged (no journey row at all, so in
particular no complete record with absent guesses) and the new-journey
counter stays 0, contrary to the claim. -/
theorem C2_counterexample :
    fill_sql cfgV resolverNoStatus [.activitySegment segSub] emptyStore 0
      = .ok (emptyStore, 0) ∧
    emptyStore.journeys = [] ∧ countComplete emptyStore = 0 := ⟨rfl, rfl, rfl⟩

/-- **C6** counterexample: in a batch holding a good segment followed by a
segment with an unidentifiable start instant, the good segment is fully
completed in the connection state (`countComplete = 1` mid-run), yet the
run aborts and the durable store still holds nothing: `terminate` closes
the connection without committing, so the prior completed segment is rolled
back rather than durably committed. -/
theorem C6_counterexample :
    fill_sql cfgV resolverNoStatus [.activitySegment segW] emptyStore 0
      = .ok (storeW, 1) ∧
    countComplete storeW = 1 ∧
    run_ingestion cfgV resolverNoStatus
      [[.activitySegment segW, .activitySegment segBadTime]] emptyStore
      = (emptyStore, .error .malformedTimestamp) ∧
    countComplete emptyStore = 0 := ⟨rfl, rfl, rfl, rfl⟩

/-- **C5** (confirmed): the merge loop counts exactly the candidates whose
rounded minute gap from the immediately preceding candidate exceeds
`ticket_time` (the first candidate always counts, and the anchor slides to
every candidate, counted or not); on the concrete instants
`[T, T+5, T+50]` with gap 40 the count is 2, and on `[T, T+10, T+45]` it
is 1. -/
theorem C5_sliding_anchor :
    (∀ (locs : List (ℕ × String)) (T : Q) (js : List JourneyRow),
        (∀ j ∈ js, (get_public_transit_sql locs j).isSome) →
        viennaLoop locs T js 0 none
          = some (claimTripCount T (candTimes locs js))) ∧
    (read_sql storeGap2 ticketQ).map (fun r => r.2.2.2.2) = some 2 ∧
    (read_sql storeGap1 ticketQ).map (fun r => r.2.2.2.2) = some 1 := by
  refine ⟨fun locs T js h => ?_, rfl, rfl⟩
  simpa using viennaLoop_none locs T js 0 h

/-- **C2** (corrected): a segment whose rank-0 guess clears the threshold
and whose start instant is not already stored complete is inserted (or
resumed) and marked complete, with the counter incremented; a segment with
a sub-threshold rank-0 guess, or with no guesses at all, is skipped
entirely — no record is inserted and the counter is unchanged. -/
theorem C2_completion :
    (∀ (cfg : Config) (res : Resolver) (seg : Segment) (s : Store) (n : ℕ)
        (g0 : Guess) (rest : List Guess) (st et : String),
      seg.activities = g0 :: rest →
      Q.blt g0.probability cfg.threshold = false →
      get_time seg.startTimestamp = .ok st →
      get_time seg.endTimestamp = .ok et →
      (∀ c, res c ≠ .transportFailure) →
      ((∃ row, findByStart s st = some row ∧ row.complete = false) ∨
        (findByStart s st = none ∧
          s.journeys.any (fun r => r.startTime == st || r.endTime == et)
            = false)) →
      ∃ s', processSegment cfg res seg s n = .ok (s', n + 1) ∧
        CompleteAt s' st) ∧
    (∀ (cfg : Config) (res : Resolver) (seg : Segment) (s : Store) (n : ℕ)
        (g0 : Guess) (rest : List Guess),
      seg.activities = g0 :: rest →
      Q.blt g0.probability cfg.threshold = true →
      processSegment cfg res seg s n = .ok (s, n)) ∧
    (∀ (cfg : Config) (res : Resolver) (seg : Segment) (s : Store) (n : ℕ),
      seg.activities = [] → processSegment cfg res seg s n = .ok (s, n)) := by
  refine ⟨?_, ?_, ?_⟩
  · intro cfg res seg s n g0 rest st et hact hblt hst het hres hdisj
    unfold processSegment
    rw [hact, hst, het]
    dsimp only
    rw [if_neg (by simp [hblt])]
    rcases hdisj with ⟨row, hrow, hcomp⟩ | ⟨hnone, hany⟩
    · rw [hrow]
      dsimp only
      rw [if_neg (by simp [hcomp])]
      obtain ⟨s', hfj⟩ := fillJourney_ok_exists seg g0 rest row.id s n hres
      obtain ⟨-, -, hfind⟩ := fillJourney_ok_facts hfj
      obtain ⟨r', hr', -, -, -, hcompl⟩ := hfind st row hrow
      refine ⟨s', hfj, r', hr', ?_⟩
      simp [hcompl]
    · rw [hnone]
      have hins : insertBare s st et
          = .ok ({ s with
              journeys := s.journeys ++
                [{ id := s.nextJourneyId, startTime := st, endTime := et }],
              nextJourneyId := s.nextJourneyId + 1 }, s.nextJourneyId) := by
        unfold insertBare
        rw [hany]
        rfl
      dsimp only
      rw [hins]
      dsimp only
      obtain ⟨s', hfj⟩ :=
        fillJourney_ok_exists seg g0 rest s.nextJourneyId _ n hres
      obtain ⟨-, -, hfind⟩ := fillJourney_ok_facts hfj
      obtain ⟨r', hr', -, -, -, hcompl⟩ :=
        hfind st _ (insertBare_findByStart hins)
      refine ⟨s', hfj, r', hr', ?_⟩
      simp [hcompl]
  · intro cfg res seg s n g0 rest hact hblt
    unfold processSegment
    rw [hact]
    dsimp only
    rw [if_pos hblt]
  · intro cfg res seg s n hact
    unfold processSegment
    rw [hact]

/-- Witness for `C2_completion` on `segW` against the empty store. -/
theorem C2_witness :
    ∃ s', processSegment cfgV resolverNoStatus segW emptyStore 0
        = .ok (s', 0 + 1) ∧ CompleteAt s' "2023-07-01 10:00:00" :=
  C2_completion.1 cfgV resolverNoStatus segW emptyStore 0
    ⟨"WALKING", Q.ofInt 90⟩ [] "2023-07-01 10:00:00" "2023-07-01 10:30:00"
    rfl rfl rfl rfl (fun c => by simp [resolverNoStatus])
    (Or.inr ⟨rfl, rfl⟩)

/-- **C9** (confirmed): the schema's `EndTime UNIQUE` constraint makes the
second insert of two segments with distinct start instants but an identical
end instant raise a store constraint error, which aborts the run with
nothing committed. -/
theorem C9_endtime_unique :
    ∀ (cfg : Config) (res : Resolver) (seg1 seg2 : Segment) (s0 : Store)
      (g1 : Guess) (r1 : List Guess) (g2 : Guess) (r2 : List Guess)
      (st1 et1 st2 et2 : String),
      s0.journeys = [] →
      seg1.activities = g1 :: r1 → seg2.activities = g2 :: r2 →
      Q.blt g1.probability cfg.threshold = false →
      Q.blt g2.probability cfg.threshold = false →
      get_time seg1.startTimestamp = .ok st1 →
      get_time seg1.endTimestamp = .ok et1 →
      get_time seg2.startTimestamp = .ok st2 →
      get_time seg2.endTimestamp = .ok et2 →
      st2 ≠ st1 → et2 = et1 →
      (∀ c, res c ≠ .transportFailure) →
      fill_sql cfg res [.activitySegment seg1, .activitySegment seg2] s0 0
        = .error .constraintViolation ∧
      run_ingestion cfg res [[.activitySegment seg1, .activitySegment seg2]] s0
        = (s0, .error .constraintViolation) := by
  intro cfg res seg1 seg2 s0 g1 r1 g2 r2 st1 et1 st2 et2 hs0 hact1 hact2
    hblt1 hblt2 hst1 het1 hst2 het2 hne heq hres
  have hnone1 : findByStart s0 st1 = none := by
    unfold findByStart
    rw [hs0]
    rfl
  have hins : insertBare s0 st1 et1
      = .ok ({ s0 with
          journeys := s0.journeys ++
            [{ id := s0.nextJourneyId, startTime := st1, endTime := et1 }],
          nextJourneyId := s0.nextJourneyId + 1 }, s0.nextJourneyId) := by
    unfold insertBare
    rw [hs0]
    rfl
  obtain ⟨S1, hfj⟩ :=
    fillJourney_ok_exists seg1 g1 r1 s0.nextJourneyId
      ({ s0 with
          journeys := s0.journeys ++
            [{ id := s0.nextJourneyId, startTime := st1, endTime := et1 }],
          nextJourneyId := s0.nextJourneyId + 1 }) 0 hres
  obtain ⟨-, hkeys, -⟩ := fillJourney_ok_facts hfj
  rw [hs0] at hkeys
  simp only [List.nil_append, List.map_cons, List.map_nil] at hkeys
  have hsingle : ∃ rr, S1.journeys = [rr] ∧
      rr.startTime = st1 ∧ rr.endTime = et1 := by
    cases hSj : S1.journeys with
    | nil => rw [hSj] at hkeys; simp at hkeys
    | cons a t =>
      rw [hSj] at hkeys
      cases t with
      | nil =>
        simp only [List.map_cons, List.map_nil, List.cons.injEq,
          and_true] at hkeys
        refine ⟨a, rfl, ?_, ?_⟩
        · have := congrArg (fun x => x.2.1) hkeys
          simpa [keyE] using this
        · have := congrArg (fun x => x.2.2) hkeys
          simpa [keyE] using this
      | cons b t2 => simp at hkeys
  obtain ⟨rr, hSj, hrst, hret⟩ := hsingle
  have hproc1 : processSegment cfg res seg1 s0 0 = .ok (S1, 1) := by
    unfold processSegment
    rw [hact1, hst1, het1]
    dsimp only
    rw [if_neg (by simp [hblt1]), hnone1]
    dsimp only
    rw [hins]
    exact hfj
  have hnone2 : findByStart S1 st2 = none := by
    unfold findByStart
    rw [hSj]
    have : (rr.startTime == st2) = false := by
      rw [hrst]
      exact beq_eq_false_iff_ne.mpr (fun hh => hne hh.symm)
    simp [List.find?, this]
  have hins2 : insertBare S1 st2 et2 = .error .constraintViolation := by
    unfold insertBare
    rw [hSj]
    have : (rr.startTime == st2 || rr.endTime == et2) = true := by
      rw [hret, heq]
      simp
    simp [List.any, this]
  have hproc2 : processSegment cfg res seg2 S1 1
      = .error .constraintViolation := by
    unfold processSegment
    rw [hact2, hst2, het2]
    dsimp only
    rw [if_neg (by simp [hblt2]), hnone2]
    dsimp only
    rw [hins2]
  have hfill : fill_sql cfg res
      [.activitySegment seg1, .activitySegment seg2] s0 0
      = .error .constraintViolation := by
    simp only [fill_sql, processItem, hproc1, hproc2]
  refine ⟨hfill, ?_⟩
  unfold run_ingestion fill_files
  rw [hfill]

/-- Witness for `C9_endtime_unique` on the concrete pair `segE1`, `segE2`. -/
theorem C9_witness :
    fill_sql cfgV resolverNoStatus
      [.activitySegment segE1, .activitySegment segE2] emptyStore 0
      = .error .constraintViolation ∧
    run_ingestion cfgV resolverNoStatus
      [[.activitySegment segE1, .activitySegment segE2]] emptyStore
      = (emptyStore, .error .constraintViolation) :=
  C9_endtime_unique cfgV resolverNoStatus segE1 segE2 emptyStore
    ⟨"WALKING", Q.ofInt 90⟩ [] ⟨"WALKING", Q.ofInt 90⟩ []
    "2023-07-02 08:00:00" "2023-07-02 10:00:00"
    "2023-07-02 09:00:00" "2023-07-02 10:00:00"
    rfl rfl rfl rfl rfl rfl rfl rfl rfl (by decide) rfl
    (fun c => by simp [resolverNoStatus])

/-- **C6** (corrected): a malformed start instant in a suprathreshold
segment aborts the whole run, and the durable store is exactly what it was
before the run — everything the run had completed (the `pre` prefix that
ingested successfully) is rolled back, not committed. -/
theorem C6_rollback :
    ∀ (cfg : Config) (res : Resolver) (pre post : List TimelineItem)
      (seg : Segment) (g0 : Guess) (rest : List Guess)
      (durable s : Store) (n : ℕ),
      fill_sql cfg res pre durable 0 = .ok (s, n) →
      seg.activities = g0 :: rest →
      Q.blt g0.probability cfg.threshold = false →
      get_time seg.startTimestamp = .error .malformedTimestamp →
      run_ingestion cfg res [pre ++ .activitySegment seg :: post] durable
        = (durable, .error .malformedTimestamp) := by
  intro cfg res pre post seg g0 rest durable s n hpre hact hblt hts
  have hseg : processSegment cfg res seg s n = .error .malformedTimestamp := by
    unfold processSegment
    rw [hact, hts]
    dsimp only
    rw [if_neg (by simp [hblt])]
  have hfill : fill_sql cfg res (pre ++ .activitySegment seg :: post)
      durable 0 = .error .malformedTimestamp := by
    rw [fill_sql_append, hpre]
    simp only [fill_sql, processItem, hseg]
  unfold run_ingestion fill_files
  rw [hfill]

/-- Witness for `C6_rollback`: a good segment followed by `segBadTime`. -/
theorem C6_witness :
    run_ingestion cfgV resolverNoStatus
      [[.activitySegment segW] ++ .activitySegment segBadTime :: []]
      emptyStore = (emptyStore, .error .malformedTimestamp) :=
  C6_rollback cfgV resolverNoStatus [.activitySegment segW] [] segBadTime
    ⟨"WALKING", Q.ofInt 90⟩ [] emptyStore storeW 1 rfl rfl rfl rfl

/-- Witness for `C5_sliding_anchor` at the `[T, T+5, T+50]` store. -/
theorem C5_witness :
    viennaLoop viennaLocs ticketQ storeGap2.journeys 0 none
      = some (claimTripCount ticketQ (candTimes viennaLocs storeGap2.journeys)) :=
  C5_sliding_anchor.1 viennaLocs ticketQ storeGap2.journeys (by decide)

end Vienna
